import Mathlib

/-!
Verification of the singularity-config-generator pipeline.

This file embeds, shallowly, the Go sources of
nutmegdevelopment/singularity-config-generator (main.go and
flag_string_string_map.go): the key/value override store, the typed
`SingularityConfig` record with its `Init` defaults, the JSON-fragment
builders (`WriteOwners`, `WriteResources`, ...), the two fixed document
templates and their rendering, the post-render JSON validity check
(`checkJSON`, modelling `encoding/json.Unmarshal` into an untyped value),
and the file-writing control flow of `main`.

Conventions of the embedding:
  * Go strings are Lean `String`s; byte slices are `List Char`.
  * Go maps are association lists; a map that the source distinguishes
    from the empty map by nil-ness is wrapped in `Option` (none = nil).
  * `log.Fatal` (process termination) is modelled by an `Option`/failure
    result; a nil-map write panic likewise.
  * Go `float64` resource quantities are modelled as integers: none of the
    properties proved here depends on fractional values or on float
    formatting.
  * `encoding/json.Marshal` is modelled per concrete Go type, in struct
    field order, honouring the `omitempty` tags of the source; string
    escaping models the quote and backslash escapes (control-character and
    HTML escaping is outside the modelled input space).
-/

namespace SCG

set_option maxRecDepth 200000

/-! ### Association-list model of Go string maps -/

/-- Lookup of a key in an association list, first binding wins. -/
def mapGet (m : List (String × String)) (k : String) : Option String :=
  match m with
  | [] => none
  | (k2, v) :: rest => if k2 = k then some v else mapGet rest k

/-- Store a value under a key, overwriting an existing binding. -/
def mapPut (m : List (String × String)) (k v : String) : List (String × String) :=
  match m with
  | [] => [(k, v)]
  | (k2, v2) :: rest => if k2 = k then (k, v) :: rest else (k2, v2) :: mapPut rest k v

/-! ### flag_string_string_map.go: the stringmap flag type -/

/-- The `stringmap` type of flag_string_string_map.go, modelled as an
association list. -/
abbrev stringmap := List (String × String)

/-- Split a character list at the first occurrence of `delim`, the model of
Go `strings.SplitN(v, delim, 2)`: `none` when the delimiter is absent
(SplitN then yields a single part). -/
def splitFirst (delim : Char) : List Char → Option (List Char × List Char)
  | [] => none
  | c :: rest =>
    if c = delim then some ([], rest)
    else
      match splitFirst delim rest with
      | some (pre, post) => some (c :: pre, post)
      | none => none

/-- The `Set` method of `stringmap` (flag_string_string_map.go lines 24-32):
split the argument on the first "=" and store value under key; when no
delimiter is found the source calls `log.Fatalf`, modelled by `none` (the
process terminates, no updated store exists). -/
def stringmap.Set (s : stringmap) (v : String) : Option stringmap :=
  match splitFirst '=' v.data with
  | some (k, val) => some (mapPut s (String.mk k) (String.mk val))
  | none => none

/-! ### loadConfig lines 352-360: the never-allocated template-data map -/

/-- Write into a possibly-nil Go map: `none` (nil) makes the write panic,
which the outer `Option` reports as failure. -/
def nilMapWrite (m : Option (List (String × String))) (k v : String) :
    Option (Option (List (String × String))) :=
  match m with
  | none => none
  | some entries => some (some (mapPut entries k v))

/-- One iteration of the var-loading loop: a previous panic propagates,
otherwise the pair is written into the (possibly nil) map. -/
def configDataStep (acc : Option (Option (List (String × String))))
    (kv : String × String) : Option (Option (List (String × String))) :=
  match acc with
  | none => none
  | some m => nilMapWrite m kv.1 kv.2

/-- The template-data construction of `loadConfig` (main.go lines 352-356):
`var singularityConfigData SingularityConfigData` declares a nil map and the
loop writes every command-line var into it. The result is the state of the
map after the loop, or `none` if a write panicked. -/
def buildSingularityConfigData (commandLineVars : List (String × String)) :
    Option (Option (List (String × String))) :=
  commandLineVars.foldl configDataStep (some none)

/-! ### The placeholder substitution engine (spec-modelled) -/

/-- Character class of a placeholder identifier: anything but a brace. -/
def notBrace (c : Char) : Bool := c != '{' && c != '}'

/-- Modelled from the spec: the body of `replacePlaceholders`, the
placeholder substitution engine, is missing from the provided sources (only
its test `TestReplacePlaceholders` is present). Spec 4.2: for every
occurrence of the literal pattern "{{identifier}}" in the text, where the
identifier is a maximal run of non-brace characters, the whole span is
replaced by the override value when the identifier is a key of the override
store, and is left verbatim otherwise; substituted values are not
re-scanned. A lone or unmatched brace is emitted verbatim and scanning
resumes after it. `fuel` only bounds recursion depth and is instantiated
with the input length, which always suffices. -/
def substFuel (vars : List (String × String)) : Nat → List Char → List Char
  | 0, l => l
  | Nat.succ f, l =>
    match l with
    | [] => []
    | [c] => [c]
    | c1 :: c2 :: rest =>
      if c1 = '{' ∧ c2 = '{' then
        if (rest.dropWhile notBrace).head? = some '}' ∧
            (rest.dropWhile notBrace).tail.head? = some '}' then
          match mapGet vars (String.mk (rest.takeWhile notBrace)) with
          | some v => v.data ++ substFuel vars f (rest.dropWhile notBrace).tail.tail
          | none =>
            '{' :: '{' ::
              (rest.takeWhile notBrace ++ '}' :: '}' ::
                substFuel vars f (rest.dropWhile notBrace).tail.tail)
        else '{' :: substFuel vars f ('{' :: rest)
      else c1 :: substFuel vars f (c2 :: rest)

/-- Modelled from the spec: `replacePlaceholders(text, vars)`, the pure text
transformation applied to the raw config before YAML parsing. -/
def replacePlaceholders (text : String) (vars : List (String × String)) : String :=
  String.mk (substFuel vars text.data.length text.data)

/-! ### The SingularityConfig data model (main.go lines 38-98, 132-150) -/

/-- The anonymous `Resources` struct of `SingularityConfig`. The Go fields
`MemoryMb`, `CPUs`, `DiskMb` are `float64`; they are modelled as integers
(no property proved here depends on fractional values). -/
structure Resources where
  NumPorts : Int
  MemoryMb : Int
  CPUs : Int
  DiskMb : Int
deriving DecidableEq

/-- SingularityVolume (main.go lines 78-82): three strings, each tagged
`json:",omitempty"`. -/
structure SingularityVolume where
  HostPath : String
  ContainerPath : String
  Mode : String
deriving DecidableEq

/-- SingularityPortMapping (main.go lines 63-69). The two
`SingularityPortMappingType` fields are empty structs in the source; Go's
`omitempty` never omits a struct field, so they carry no data and always
serialize as an empty object. -/
structure SingularityPortMapping where
  HostPort : Int
  ContainerPort : Int
  Protocol : String
deriving DecidableEq

/-- SingularityDockerInfo (main.go lines 142-150), in source field order.
`Parameters` is a Go map serialized with `omitempty`; nil and empty maps
behave identically there, so a plain association list suffices. -/
structure SingularityDockerInfo where
  ForcePullImage : Bool
  Privileged : Bool
  Network : String
  Image : String
  Parameters : List (String × String)
  DockerParameters : List (List (String × String))
  PortMappings : List SingularityPortMapping
deriving DecidableEq

/-- SingularityContainerInfo (main.go lines 134-138), in source field order:
docker, type, volumes (the volumes field carries `json:"volumes,omitempty"`). -/
structure SingularityContainerInfo where
  Docker : SingularityDockerInfo
  Type_ : String
  Volumes : List SingularityVolume
deriving DecidableEq

/-- SingularityConfig (main.go lines 38-59). `RequiredSlaveAttributes` is
compared against nil by `WriteRequiredSlaveAttributes`, so its nil-ness is
tracked with `Option` (`none` = nil map). `Env` is only ever length-tested,
so a plain association list suffices. -/
structure SingularityConfig where
  Command : String
  DeployID : String
  Env : List (String × String)
  KillOldNonLongRunningTasksAfterMillis : Int
  NumRetriesOnFailure : Int
  Owners : List String
  RequestType : String
  RequiredSlaveAttributes : Option (List (String × String))
  Schedule : String
  ScheduledExpectedRuntimeMillis : Int
  RequestID : String
  Arguments : List String
  ContainerInfo : SingularityContainerInfo
  Resources : Resources
  URIs : List String
deriving DecidableEq

/-- The zero value of `SingularityConfig`, as Go's
`var singularityConfig SingularityConfig` produces it. -/
def emptySingularityConfig : SingularityConfig :=
  { Command := ""
    DeployID := ""
    Env := []
    KillOldNonLongRunningTasksAfterMillis := 0
    NumRetriesOnFailure := 0
    Owners := []
    RequestType := ""
    RequiredSlaveAttributes := none
    Schedule := ""
    ScheduledExpectedRuntimeMillis := 0
    RequestID := ""
    Arguments := []
    ContainerInfo :=
      { Docker :=
          { ForcePullImage := false
            Privileged := false
            Network := ""
            Image := ""
            Parameters := []
            DockerParameters := []
            PortMappings := [] }
        Type_ := ""
        Volumes := [] }
    Resources := { NumPorts := 0, MemoryMb := 0, CPUs := 0, DiskMb := 0 }
    URIs := [] }

/-- The constant `scheduledExpectedRuntimeMillisDefault` (main.go line 18). -/
def scheduledExpectedRuntimeMillisDefault : Int := 360000

/-- The constant `killOldNonLongRunningTasksAfterMillisDefault` (main.go line 19). -/
def killOldNonLongRunningTasksAfterMillisDefault : Int := 10000

/-- The `Init` method (main.go lines 85-98): set `Volumes` to an explicit
empty slice and replace the two zero-valued timeout fields with their
default constants. -/
def SingularityConfig.Init (s : SingularityConfig) : SingularityConfig :=
  { s with
    ContainerInfo := { s.ContainerInfo with Volumes := [] }
    ScheduledExpectedRuntimeMillis :=
      if s.ScheduledExpectedRuntimeMillis = 0 then scheduledExpectedRuntimeMillisDefault
      else s.ScheduledExpectedRuntimeMillis
    KillOldNonLongRunningTasksAfterMillis :=
      if s.KillOldNonLongRunningTasksAfterMillis = 0 then killOldNonLongRunningTasksAfterMillisDefault
      else s.KillOldNonLongRunningTasksAfterMillis }

/-! ### The YAML unmarshalling stage of loadConfig, for the defaultable fields

`loadConfig` (main.go lines 340-385) calls `Init` on the zero config and
then `yaml.Unmarshal`s the (substituted) document into it. yaml.v2 sets a
struct field for every key present in the document, including a key whose
value is the explicit scalar 0, and leaves a field untouched when its key is
absent. The claims about defaults concern exactly the two timeout fields, so
the document is modelled by its (optional) values for those keys. -/

/-- The default-relevant content of a YAML document: `none` means the key is
absent, `some v` that the key is present with integer value `v`. -/
structure SingularityYamlDoc where
  scheduledExpectedRuntimeMillis : Option Int
  killOldNonLongRunningTasksAfterMillis : Option Int
deriving DecidableEq

/-- Model of `yaml.Unmarshal` restricted to the two defaultable fields: a
present key overwrites the field, an absent key leaves it unchanged. -/
def yamlUnmarshal (y : SingularityYamlDoc) (s : SingularityConfig) : SingularityConfig :=
  { s with
    ScheduledExpectedRuntimeMillis :=
      y.scheduledExpectedRuntimeMillis.getD s.ScheduledExpectedRuntimeMillis
    KillOldNonLongRunningTasksAfterMillis :=
      y.killOldNonLongRunningTasksAfterMillis.getD s.KillOldNonLongRunningTasksAfterMillis }

/-- `loadConfig`'s defaults pipeline (main.go lines 340-385): `Init` on the
zero config first, YAML unmarshalling second. -/
def loadConfigDefaults (y : SingularityYamlDoc) : SingularityConfig :=
  yamlUnmarshal y (SingularityConfig.Init emptySingularityConfig)

/-! ### JSON serialization model (encoding/json on the source's types) -/

/-- Escape one character for embedding in a JSON string literal: the model
covers the quote and backslash escapes of `encoding/json`. -/
def jsonEscapeChar (c : Char) : List Char :=
  if c = '"' then ['\\', '"']
  else if c = '\\' then ['\\', '\\']
  else [c]

/-- Escape a character list for embedding in a JSON string literal. -/
def jsonEscape (s : List Char) : List Char :=
  (s.map jsonEscapeChar).flatten

/-- A JSON string literal: quotes around the escaped member string. -/
def jsonStringValue (s : String) : String :=
  "\"" ++ String.mk (jsonEscape s.data) ++ "\""

/-- Comma-join a list of already-serialized pieces. -/
def joinComma (l : List String) : String := String.intercalate "," l

/-- A JSON array of strings, as `json.Marshal` emits a `[]string`. -/
def jsonStringArray (l : List String) : String :=
  "[" ++ joinComma (l.map jsonStringValue) ++ "]"

/-- A JSON object built from pre-serialized members. -/
def jsonObjStr (members : List String) : String :=
  "\x7b" ++ joinComma members ++ "\x7d"

/-- A JSON object for a `map[string]string`. `json.Marshal` sorts map keys;
the model keeps the association list's order, which no proved property
depends on. -/
def jsonStringMap (m : List (String × String)) : String :=
  jsonObjStr (m.map (fun kv => jsonStringValue kv.1 ++ ":" ++ jsonStringValue kv.2))

/-- Decimal digits of a natural number; `fuel` only bounds recursion and is
instantiated with a sufficiently large value. -/
def natDigitsFuel : Nat → Nat → List Char
  | 0, _ => []
  | Nat.succ f, n =>
    if n < 10 then [Char.ofNat (48 + n)]
    else natDigitsFuel f (n / 10) ++ [Char.ofNat (48 + n % 10)]

/-- Decimal representation of a natural number. -/
def natStr (n : Nat) : String := String.mk (natDigitsFuel (n + 1) n)

/-- Decimal representation of an integer, as Go prints an `int` (and as
`json.Marshal` prints the integral numeric values modelled here). -/
def intStr (i : Int) : String :=
  if i < 0 then "-" ++ natStr i.natAbs else natStr i.toNat

/-- `json.Marshal` of the `Resources` struct: field order of the source,
every field tagged `omitempty` (omitted when zero). -/
def resourcesJSON (r : Resources) : String :=
  jsonObjStr
    ((if r.NumPorts = 0 then [] else ["\"numPorts\":" ++ intStr r.NumPorts]) ++
     (if r.MemoryMb = 0 then [] else ["\"memoryMb\":" ++ intStr r.MemoryMb]) ++
     (if r.CPUs = 0 then [] else ["\"cpus\":" ++ intStr r.CPUs]) ++
     (if r.DiskMb = 0 then [] else ["\"diskMb\":" ++ intStr r.DiskMb]))

/-- `json.Marshal` of a `SingularityVolume`: three `omitempty` strings. -/
def volumeJSON (v : SingularityVolume) : String :=
  jsonObjStr
    ((if v.HostPath = "" then [] else ["\"hostPath\":" ++ jsonStringValue v.HostPath]) ++
     (if v.ContainerPath = "" then [] else ["\"containerPath\":" ++ jsonStringValue v.ContainerPath]) ++
     (if v.Mode = "" then [] else ["\"mode\":" ++ jsonStringValue v.Mode]))

/-- `json.Marshal` of a `SingularityPortMapping`: `hostPort` and
`containerPort` always, the two empty `SingularityPortMappingType` structs
always (Go's `omitempty` never omits a struct), `protocol` when nonempty. -/
def portMappingJSON (p : SingularityPortMapping) : String :=
  jsonObjStr
    (["\"hostPort\":" ++ intStr p.HostPort,
      "\"containerPort\":" ++ intStr p.ContainerPort,
      "\"containerPortType\":" ++ jsonObjStr []] ++
     (if p.Protocol = "" then [] else ["\"protocol\":" ++ jsonStringValue p.Protocol]) ++
     ["\"hostPortType\":" ++ jsonObjStr []])

/-- `json.Marshal` of a `map[string]string` docker parameter entry list. -/
def dockerParametersJSON (l : List (List (String × String))) : String :=
  "[" ++ joinComma (l.map jsonStringMap) ++ "]"

/-- `json.Marshal` of `SingularityDockerInfo`, source field order with the
source's `omitempty` tags (`forcePullImage`, `parameters`,
`dockerParameters`, `portMappings`; `privileged`, `network`, `image` are
always present). -/
def dockerInfoJSON (d : SingularityDockerInfo) : String :=
  jsonObjStr
    ((if d.ForcePullImage then ["\"forcePullImage\":true"] else []) ++
     ["\"privileged\":" ++ (if d.Privileged then "true" else "false"),
      "\"network\":" ++ jsonStringValue d.Network,
      "\"image\":" ++ jsonStringValue d.Image] ++
     (if d.Parameters.length = 0 then [] else ["\"parameters\":" ++ jsonStringMap d.Parameters]) ++
     (if d.DockerParameters.length = 0 then []
      else ["\"dockerParameters\":" ++ dockerParametersJSON d.DockerParameters]) ++
     (if d.PortMappings.length = 0 then []
      else ["\"portMappings\":" ++ "[" ++ joinComma (d.PortMappings.map portMappingJSON) ++ "]"]))

/-- `json.Marshal` of `SingularityContainerInfo`: `docker` and `type`
always, `volumes` only when nonempty because of its `omitempty` tag — even
though `Init` put an explicit empty slice there. -/
def containerInfoJSON (c : SingularityContainerInfo) : String :=
  jsonObjStr
    (["\"docker\":" ++ dockerInfoJSON c.Docker,
      "\"type\":" ++ jsonStringValue c.Type_] ++
     (if c.Volumes.length = 0 then []
      else ["\"volumes\":" ++ "[" ++ joinComma (c.Volumes.map volumeJSON) ++ "]"]))

/-- `marshalJSON` (main.go lines 169-179): wrap a marshalled value as a
`"name": value,` pair with a trailing comma. The model receives the value
already serialized by the per-type marshal model. -/
def marshalJSON (elementName : String) (j : String) : String :=
  "\"" ++ elementName ++ "\": " ++ j ++ ","

/-! ### The fragment builders (main.go lines 155-226) -/

/-- `WriteContainerInfo` (main.go lines 155-161): empty unless a container
type is set. -/
def SingularityConfig.WriteContainerInfo (s : SingularityConfig) : String :=
  if s.ContainerInfo.Type_ = "" then ""
  else marshalJSON "containerInfo" (containerInfoJSON s.ContainerInfo)

/-- `WriteOwners` (main.go lines 182-188). -/
def SingularityConfig.WriteOwners (s : SingularityConfig) : String :=
  if s.Owners.length = 0 then ""
  else marshalJSON "owners" (jsonStringArray s.Owners)

/-- `WriteResources` (main.go lines 191-193): the source has no emptiness
check, the fragment is always produced. -/
def SingularityConfig.WriteResources (s : SingularityConfig) : String :=
  marshalJSON "resources" (resourcesJSON s.Resources)

/-- `WriteSchedule` (main.go lines 196-201). -/
def SingularityConfig.WriteSchedule (s : SingularityConfig) : String :=
  if s.Schedule = "" then ""
  else marshalJSON "schedule" (jsonStringValue s.Schedule)

/-- `WriteEnv` (main.go lines 204-209). -/
def SingularityConfig.WriteEnv (s : SingularityConfig) : String :=
  if s.Env.length = 0 then ""
  else marshalJSON "env" (jsonStringMap s.Env)

/-- `WriteRequiredSlaveAttributes` (main.go lines 212-218): the check is
against nil, not against emptiness — a present-but-empty map produces a
fragment. -/
def SingularityConfig.WriteRequiredSlaveAttributes (s : SingularityConfig) : String :=
  match s.RequiredSlaveAttributes with
  | none => ""
  | some m => marshalJSON "requiredSlaveAttributes" (jsonStringMap m)

/-- `WriteArguments` (main.go lines 221-226). -/
def SingularityConfig.WriteArguments (s : SingularityConfig) : String :=
  if s.Arguments.length = 0 then ""
  else marshalJSON "arguments" (jsonStringArray s.Arguments)

/-! ### Template rendering (main.go lines 103-130, 303-316)

`SingularityRequestTemplate` and `SingularityDeployTemplate` are fixed
text/template documents; executing one substitutes each `.Field` with the
field's value and each `.WriteX` with the builder's output, and the `-`
markers of the request template trim the whitespace that follows them. The
rendered text below reproduces the templates' literal bytes. -/

/-- Rendering of `SingularityRequestTemplate` against a config. -/
def renderRequest (s : SingularityConfig) : String :=
  "\n\x7b\n    " ++ s.WriteOwners ++ s.WriteRequiredSlaveAttributes ++ s.WriteSchedule ++
  "\"killOldNonLongRunningTasksAfterMillis\": " ++ intStr s.KillOldNonLongRunningTasksAfterMillis ++
  ",\n\t\"numRetriesOnFailure\": " ++ intStr s.NumRetriesOnFailure ++
  ",\n\t\"requestType\": \"" ++ s.RequestType ++
  "\",\n    \"scheduledExpectedRuntimeMillis\": " ++ intStr s.ScheduledExpectedRuntimeMillis ++
  ",\n    \"id\": \"" ++ s.RequestID ++ "\"\n\x7d\n"

/-- Rendering of `SingularityDeployTemplate` against a config. -/
def renderDeploy (s : SingularityConfig) : String :=
  "\n\x7b\n    \"deploy\": \x7b\n        " ++ s.WriteArguments ++
  "\n\t\t" ++ s.WriteContainerInfo ++
  "\n\t\t" ++ s.WriteEnv ++
  "\n        " ++ s.WriteResources ++
  "\n        \"requestId\": \"" ++ s.RequestID ++
  "\",\n        \"id\": \"" ++ s.DeployID ++ "\"\n    \x7d\n\x7d\n"

/-! ### checkJSON (main.go lines 269-281): JSON syntactic validity

`checkJSON` calls `encoding/json.Unmarshal` into an `interface` value and
only reports whether it succeeded, i.e. whether the bytes are one
syntactically well-formed JSON value surrounded by whitespace. The model is
a recursive-descent acceptor over the JSON grammar. -/

/-- JSON whitespace (space, tab, newline, carriage return). -/
def isWS (c : Char) : Bool := c = ' ' || c = '\t' || c = '\n' || c = '\r'

/-- Drop leading JSON whitespace. -/
def skipWS (l : List Char) : List Char := l.dropWhile isWS

/-- Hexadecimal digit test for \uXXXX escapes. -/
def isHexDigitC (c : Char) : Bool :=
  c.isDigit || (97 ≤ c.toNat && c.toNat ≤ 102) || (65 ≤ c.toNat && c.toNat ≤ 70)

/-- Scan the body of a JSON string literal after its opening quote; returns
the input remaining after the closing quote. Escape sequences and the
ban on raw control characters follow the JSON grammar. -/
def strChars : List Char → Option (List Char)
  | [] => none
  | c :: rest =>
    if c = '"' then some rest
    else if c = '\\' then
      match rest with
      | [] => none
      | e :: rest2 =>
        if e = 'u' then
          match rest2 with
          | a :: b :: c2 :: d :: rest3 =>
            if isHexDigitC a && isHexDigitC b && isHexDigitC c2 && isHexDigitC d then
              strChars rest3
            else none
          | _ => none
        else if e = '"' || e = '\\' || e = '/' || e = 'b' || e = 'f' || e = 'n' || e = 'r' || e = 't' then
          strChars rest2
        else none
    else if 32 ≤ c.toNat then strChars rest else none

/-- Optional fraction part of a JSON number. -/
def parseFrac (l : List Char) : Option (List Char) :=
  match l with
  | [] => some []
  | c :: rest =>
    if c = '.' then
      match rest with
      | [] => none
      | c2 :: r2 => if c2.isDigit then some (r2.dropWhile Char.isDigit) else none
    else some (c :: rest)

/-- Optional exponent part of a JSON number. -/
def parseExp (l : List Char) : Option (List Char) :=
  match l with
  | [] => some []
  | c :: rest =>
    if c = 'e' ∨ c = 'E' then
      match rest with
      | [] => none
      | c2 :: r2 =>
        if c2 = '+' ∨ c2 = '-' then
          match r2 with
          | [] => none
          | c3 :: r3 => if c3.isDigit then some (r3.dropWhile Char.isDigit) else none
        else if c2.isDigit then some (r2.dropWhile Char.isDigit) else none
    else some (c :: rest)

/-- A JSON number: optional minus, digits, optional fraction and exponent. -/
def parseNumber (l : List Char) : Option (List Char) :=
  match l with
  | [] => none
  | c :: rest =>
    match (if c = '-' then rest else c :: rest) with
    | [] => none
    | c2 :: r2 =>
      if c2.isDigit then
        match parseFrac (r2.dropWhile Char.isDigit) with
        | some l2 => parseExp l2
        | none => none
      else none

/-- Mode of the JSON acceptor: a value, the members of an object (from the
first key, ending after the closing brace), or the elements of an array. -/
inductive PMode
  | val
  | members
  | elems
deriving DecidableEq

/-- The JSON acceptor. `parseJ f m l` consumes one value (or member/element
list) from `l` and returns the remaining input; `f` only bounds recursion
depth and the top-level entry instantiates it large enough for any input. -/
def parseJ : Nat → PMode → List Char → Option (List Char)
  | 0, _, _ => none
  | Nat.succ f, PMode.val, l =>
    match l with
    | [] => none
    | c :: rest =>
      if c = '"' then strChars rest
      else if c = '{' then
        if (skipWS rest).head? = some '}' then some (skipWS rest).tail
        else parseJ f PMode.members (skipWS rest)
      else if c = '[' then
        if (skipWS rest).head? = some ']' then some (skipWS rest).tail
        else parseJ f PMode.elems (skipWS rest)
      else if c = 't' then
        if rest.take 3 = ['r', 'u', 'e'] then some (rest.drop 3) else none
      else if c = 'f' then
        if rest.take 4 = ['a', 'l', 's', 'e'] then some (rest.drop 4) else none
      else if c = 'n' then
        if rest.take 3 = ['u', 'l', 'l'] then some (rest.drop 3) else none
      else parseNumber (c :: rest)
  | Nat.succ f, PMode.members, l =>
    match l with
    | [] => none
    | c :: rest =>
      if c = '"' then
        match strChars rest with
        | none => none
        | some r1 =>
          if (skipWS r1).head? = some ':' then
            match parseJ f PMode.val (skipWS (skipWS r1).tail) with
            | none => none
            | some r3 =>
              if (skipWS r3).head? = some ',' then
                parseJ f PMode.members (skipWS (skipWS r3).tail)
              else if (skipWS r3).head? = some '}' then some (skipWS r3).tail
              else none
          else none
      else none
  | Nat.succ f, PMode.elems, l =>
    match parseJ f PMode.val l with
    | none => none
    | some r =>
      if (skipWS r).head? = some ',' then parseJ f PMode.elems (skipWS (skipWS r).tail)
      else if (skipWS r).head? = some ']' then some (skipWS r).tail
      else none

/-- `checkJSON` (main.go lines 269-281): true iff the bytes are a single
well-formed JSON value with only whitespace around it. -/
def checkJSON (b : String) : Bool :=
  match parseJ (2 * b.data.length + 16) PMode.val (skipWS b.data) with
  | some r => (skipWS r).isEmpty
  | none => false

/-! ### process and main (main.go lines 303-338, 387-414) -/

/-- The fixed output file names (main.go lines 22-23). -/
def deployFilename : String := "singularity-deploy.json"

/-- The request output file name. -/
def requestFilename : String := "singularity-request.json"

/-- `process` (main.go lines 303-338): render (total for these templates),
validate, then write. The result is the written-files list extended with
`filename`, or `none` when validation failed (the caller treats that as a
fatal error and the file is not written). -/
def process (rendered : String) (filename : String) (written : List String) :
    Option (List String) :=
  if checkJSON rendered then some (written ++ [filename]) else none

/-- The processing sequence of `main` (main.go lines 397-413): the request
document is rendered, validated and written first; only then is the deploy
document processed. The result is the list of files written before the
process ends (normally or fatally). -/
def mainWrites (cfg : SingularityConfig) : List String :=
  match process (renderRequest cfg) requestFilename [] with
  | none => []
  | some w1 =>
    match process (renderDeploy cfg) deployFilename w1 with
    | none => w1
    | some w2 => w2

/-- Substring occurrence test over character lists. -/
def occursSub (pat : List Char) : List Char → Bool
  | [] => decide (pat = [])
  | c :: rest => pat.isPrefixOf (c :: rest) || occursSub pat rest

/-! ### Specification-side definitions and analysis predicates -/

/-- Modelled from the spec's words (4.4): a complete `"name": <value>,`
fragment with a trailing comma, built from a member name and the value's
serialization. -/
def specFragment (name value : String) : String :=
  "\"" ++ name ++ "\": " ++ value ++ ","

/-- Characters that may stand raw inside a JSON string literal: not a
quote, not a backslash, not a control character. -/
def SafeChars (s : List Char) : Prop :=
  ∀ c ∈ s, c ≠ '"' ∧ c ≠ '\\' ∧ 32 ≤ c.toNat

instance (s : List Char) : Decidable (SafeChars s) := by
  unfold SafeChars; infer_instance

/-- True when the input does not continue a preceding JSON number: the next
character (if any) is no digit, decimal point or exponent marker. -/
def numBoundary (l : List Char) : Bool :=
  match l with
  | [] => true
  | c :: _ => !(c.isDigit || c = '.' || c = 'e' || c = 'E')

/-- A self-delimiting serialized JSON value: the acceptor consumes exactly
it (whatever follows at a number boundary) and it starts with no
whitespace. -/
def ValFrag (v : List Char) : Prop :=
  (∀ rest : List Char, skipWS (v ++ rest) = v ++ rest) ∧
  ∀ (f : Nat) (rest : List Char), v.length + rest.length ≤ f → numBoundary rest = true →
    parseJ f PMode.val (v ++ rest) = some rest

/-- A self-delimiting `"name": value,` member fragment, as the object-member
loop of the acceptor consumes it: parsing the fragment followed by anything
consumes exactly the fragment (its trailing comma acting as the member
separator) and continues with the remaining members. -/
def MemberFrag (F : List Char) : Prop :=
  F.head? = some '"' ∧
  ∀ (f : Nat) (rest : List Char), F.length + rest.length ≤ f →
    parseJ (f + 1) PMode.members (F ++ rest) = parseJ f PMode.members (skipWS rest)

/-- An optional fragment: absent, or a self-delimiting member fragment. -/
def OptFrag (F : List Char) : Prop := F = [] ∨ MemberFrag F

/-- All characters are JSON whitespace. -/
def allWS (w : List Char) : Prop := ∀ c ∈ w, isWS c = true

instance (w : List Char) : Decidable (allWS w) := by
  unfold allWS; infer_instance

/-- Concatenation of (fragment, trailing whitespace) pairs, the shape of the
optional-member region of the two document templates. -/
def fragJoin : List (List Char × List Char) → List Char
  | [] => []
  | (F, w) :: t => F ++ (w ++ fragJoin t)

/-! ### Concrete fixture configurations used by the analysis -/

/-- An `Init`-ed config with a container type but no volumes. -/
def dockerTypeConfig : SingularityConfig :=
  { emptySingularityConfig.Init with
    ContainerInfo := { emptySingularityConfig.Init.ContainerInfo with Type_ := "DOCKER" } }

/-- A config whose deploy document breaks JSON validity (a raw quote in the
deploy id) while its request document is valid. -/
def deployInvalidConfig : SingularityConfig :=
  { emptySingularityConfig with RequestID := "id1", DeployID := "x\"" }

/-- A config whose request document breaks JSON validity (a raw quote in
the request type). -/
def requestInvalidConfig : SingularityConfig :=
  { emptySingularityConfig with RequestType := "x\"" }

/-- A config with a present-but-empty required-slave-attributes mapping
(in Go: a non-nil empty map, as `required-slave-attributes: {}` produces). -/
def emptyRSAConfig : SingularityConfig :=
  { emptySingularityConfig with RequiredSlaveAttributes := some [] }

/-! ## Supporting lemmas -/

theorem stringMk_data (s : String) : String.mk s.data = s := by
  cases s
  rfl

theorem dropWhile_length_le (p : Char → Bool) (l : List Char) :
    (l.dropWhile p).length ≤ l.length := by
  induction l with
  | nil => simp [List.dropWhile]
  | cons c r ih =>
    by_cases h : p c
    · simp only [List.dropWhile, h]
      exact ih.trans (by simp)
    · simp [List.dropWhile, h]

theorem dropWhile_append_all (p : Char → Bool) (xs ys : List Char)
    (h : ∀ x ∈ xs, p x = true) : (xs ++ ys).dropWhile p = ys.dropWhile p := by
  induction xs with
  | nil => rfl
  | cons c r ih =>
    simp only [List.cons_append, List.dropWhile]
    rw [h c (by simp)]
    exact ih (fun x hx => h x (by simp [hx]))

theorem dropWhile_cons_false (p : Char → Bool) (y : Char) (ys : List Char)
    (hy : p y = false) : (y :: ys).dropWhile p = y :: ys := by
  simp [List.dropWhile, hy]

theorem takeWhile_append_stop (p : Char → Bool) (xs : List Char) (y : Char) (ys : List Char)
    (h : ∀ x ∈ xs, p x = true) (hy : p y = false) :
    (xs ++ y :: ys).takeWhile p = xs := by
  induction xs with
  | nil => simp [List.takeWhile, hy]
  | cons c r ih =>
    simp only [List.cons_append, List.takeWhile]
    rw [h c (by simp)]
    simp only [cond_true]
    exact congrArg (List.cons c) (ih (fun x hx => h x (by simp [hx])))

theorem splitFirst_of_not_mem (d : Char) (l : List Char) (h : d ∉ l) :
    splitFirst d l = none := by
  induction l with
  | nil => rfl
  | cons c rest ih =>
    have hc : ¬(c = d) := fun e => h (e ▸ List.mem_cons_self c rest)
    have hr := ih (fun hm => h (List.mem_cons_of_mem c hm))
    simp [splitFirst, hc, hr]

theorem splitFirst_append_first (d : Char) (key value : List Char) (h : d ∉ key) :
    splitFirst d (key ++ d :: value) = some (key, value) := by
  induction key with
  | nil => simp [splitFirst]
  | cons c rest ih =>
    have hc : ¬(c = d) := fun e => h (e ▸ List.mem_cons_self c rest)
    have hr := ih (fun hm => h (List.mem_cons_of_mem c hm))
    simp [splitFirst, hc, hr]

theorem mapGet_mapPut (m : List (String × String)) (k v : String) :
    mapGet (mapPut m k v) k = some v := by
  induction m with
  | nil => simp [mapGet, mapPut]
  | cons kv rest ih =>
    by_cases h : kv.1 = k
    · simp [mapGet, mapPut, h]
    · simp [mapGet, mapPut, h, ih]

theorem foldl_configDataStep_none (l : List (String × String)) :
    l.foldl configDataStep none = none := by
  induction l with
  | nil => rfl
  | cons kv rest ih => simp [List.foldl_cons, configDataStep, ih]

theorem stringMk_data_eq (l : List Char) : (String.mk l).data = l := rfl

theorem stringMk_append (a b : List Char) : String.mk a ++ String.mk b = String.mk (a ++ b) := rfl

/-! ## Lemmas on the substitution engine -/

theorem substFuel_nil (vars : List (String × String)) (f : Nat) : substFuel vars f [] = [] := by
  cases f <;> rfl

theorem substFuel_cons_ne (vars : List (String × String)) (f : Nat) (c : Char) (l : List Char)
    (hc : c ≠ '{') : substFuel vars (f + 1) (c :: l) = c :: substFuel vars f l := by
  cases l with
  | nil => rw [substFuel_nil]; rfl
  | cons c2 l2 =>
    simp only [substFuel]
    rw [if_neg (fun h => hc h.1)]

theorem substFuel_append_pre (vars : List (String × String)) (pre : List Char) :
    ∀ (f : Nat) (l : List Char), (∀ c ∈ pre, c ≠ '{') → pre.length + l.length ≤ f →
    substFuel vars f (pre ++ l) = pre ++ substFuel vars (f - pre.length) l := by
  induction pre with
  | nil => intro f l _ _; simp
  | cons c p ih =>
    intro f l hpre hf
    obtain ⟨f2, rfl⟩ : ∃ f2, f = f2 + 1 := ⟨f - 1, by simp at hf; omega⟩
    have hfe : (f2 + 1) - (c :: p).length = f2 - p.length := by
      simp only [List.length_cons]
      omega
    rw [hfe, List.cons_append, substFuel_cons_ne vars f2 c (p ++ l) (hpre c (by simp))]
    exact congrArg (List.cons c)
      (ih f2 l (fun x hx => hpre x (by simp [hx])) (by simp at hf; omega))

theorem substFuel_placeholder_resolved (vars : List (String × String)) (f : Nat)
    (id tail : List Char) (v : String) (hid : ∀ c ∈ id, notBrace c = true)
    (hv : mapGet vars (String.mk id) = some v) :
    substFuel vars (f + 1) ('{' :: '{' :: (id ++ '}' :: '}' :: tail)) =
      v.data ++ substFuel vars f tail := by
  have hdrop : (id ++ '}' :: '}' :: tail).dropWhile notBrace = '}' :: '}' :: tail := by
    rw [dropWhile_append_all notBrace id _ hid, dropWhile_cons_false notBrace '}' _ (by decide)]
  have htake : (id ++ '}' :: '}' :: tail).takeWhile notBrace = id :=
    takeWhile_append_stop notBrace id '}' ('}' :: tail) hid (by decide)
  simp only [substFuel]
  rw [if_pos (by decide)]
  rw [hdrop, htake]
  have hcond : ('}' :: '}' :: tail).head? = some '}' ∧
      ('}' :: '}' :: tail).tail.head? = some '}' := ⟨rfl, rfl⟩
  rw [if_pos hcond]
  rw [hv]
  rfl

theorem substFuel_placeholder_unresolved (vars : List (String × String)) (f : Nat)
    (id tail : List Char) (hid : ∀ c ∈ id, notBrace c = true)
    (hv : mapGet vars (String.mk id) = none) :
    substFuel vars (f + 1) ('{' :: '{' :: (id ++ '}' :: '}' :: tail)) =
      '{' :: '{' :: (id ++ '}' :: '}' :: substFuel vars f tail) := by
  have hdrop : (id ++ '}' :: '}' :: tail).dropWhile notBrace = '}' :: '}' :: tail := by
    rw [dropWhile_append_all notBrace id _ hid, dropWhile_cons_false notBrace '}' _ (by decide)]
  have htake : (id ++ '}' :: '}' :: tail).takeWhile notBrace = id :=
    takeWhile_append_stop notBrace id '}' ('}' :: tail) hid (by decide)
  simp only [substFuel]
  rw [if_pos (by decide)]
  rw [hdrop, htake]
  have hcond : ('}' :: '}' :: tail).head? = some '}' ∧
      ('}' :: '}' :: tail).tail.head? = some '}' := ⟨rfl, rfl⟩
  rw [if_pos hcond]
  rw [hv]
  rfl

theorem substFuel_congr (vars : List (String × String)) :
    ∀ f g l, l.length ≤ f → l.length ≤ g → substFuel vars f l = substFuel vars g l := by
  intro f
  induction f using Nat.strong_induction_on with
  | _ f ih =>
    intro g l hf hg
    match l with
    | [] => rw [substFuel_nil, substFuel_nil]
    | c :: l2 =>
      have hf1 : 1 ≤ f := le_trans (by simp) hf
      have hg1 : 1 ≤ g := le_trans (by simp) hg
      obtain ⟨f2, rfl⟩ : ∃ f2, f = f2 + 1 := ⟨f - 1, by omega⟩
      obtain ⟨g2, rfl⟩ : ∃ g2, g = g2 + 1 := ⟨g - 1, by omega⟩
      match l2 with
      | [] => rfl
      | c2 :: l3 =>
        have hlf : l3.length + 2 ≤ f2 + 1 := by simpa using hf
        have hlg : l3.length + 2 ≤ g2 + 1 := by simpa using hg
        simp only [substFuel]
        by_cases hb : c = '{' ∧ c2 = '{'
        · rw [if_pos hb, if_pos hb]
          by_cases hd : (l3.dropWhile notBrace).head? = some '}' ∧
              (l3.dropWhile notBrace).tail.head? = some '}'
          · rw [if_pos hd, if_pos hd]
            have hT : (l3.dropWhile notBrace).tail.tail.length ≤ l3.length := by
              have h1 := dropWhile_length_le notBrace l3
              have h2 := List.length_tail (l3.dropWhile notBrace)
              have h3 := List.length_tail (l3.dropWhile notBrace).tail
              omega
            have e := ih f2 (by omega) g2 (l3.dropWhile notBrace).tail.tail
              (by omega) (by omega)
            cases hm : mapGet vars (String.mk (l3.takeWhile notBrace)) with
            | none => rw [e]
            | some v => rw [e]
          · rw [if_neg hd, if_neg hd]
            have e := ih f2 (by omega) g2 ('{' :: l3) (by simp; omega) (by simp; omega)
            rw [e]
        · rw [if_neg hb, if_neg hb]
          have e := ih f2 (by omega) g2 (c2 :: l3) (by simp; omega) (by simp; omega)
          rw [e]

/-! ## Lemmas on the JSON acceptor -/

theorem skipWS_nil : skipWS [] = [] := rfl

theorem skipWS_cons_ws (c : Char) (l : List Char) (h : isWS c = true) :
    skipWS (c :: l) = skipWS l := by
  simp [skipWS, List.dropWhile, h]

theorem skipWS_cons_not (c : Char) (l : List Char) (h : isWS c = false) :
    skipWS (c :: l) = c :: l := by
  simp [skipWS, List.dropWhile, h]

theorem skipWS_append_allWS (w l : List Char) (h : allWS w) :
    skipWS (w ++ l) = skipWS l :=
  dropWhile_append_all isWS w l h

theorem skipWS_skipWS (l : List Char) : skipWS (skipWS l) = skipWS l := by
  induction l with
  | nil => rfl
  | cons c r ih =>
    by_cases h : isWS c = true
    · rw [skipWS_cons_ws c r h, ih]
    · rw [skipWS_cons_not c r (by simpa using h), skipWS_cons_not c r (by simpa using h)]

theorem isWS_false_of_isDigit (c : Char) (h : c.isDigit = true) : isWS c = false := by
  by_contra hw
  rw [Bool.not_eq_false] at hw
  have h4 : ((c = ' ' ∨ c = '\t') ∨ c = '\n') ∨ c = '\r' := by simpa [isWS] using hw
  rcases h4 with ((rfl | rfl) | rfl) | rfl <;> exact absurd h (by decide)

theorem strChars_safe (v : List Char) (rest : List Char) (h : SafeChars v) :
    strChars (v ++ '"' :: rest) = some rest := by
  induction v with
  | nil =>
    rw [List.nil_append, strChars.eq_def]
    simp
  | cons c vt ih =>
    obtain ⟨hq, hb, hc⟩ := h c (by simp)
    rw [List.cons_append, strChars.eq_def]
    simp only []
    rw [if_neg hq, if_neg hb, if_pos hc]
    exact ih (fun x hx => h x (by simp [hx]))

theorem dropWhile_digits (ds rest : List Char) (hds : ∀ c ∈ ds, c.isDigit = true)
    (hrest : numBoundary rest = true) : (ds ++ rest).dropWhile Char.isDigit = rest := by
  rw [dropWhile_append_all Char.isDigit ds rest hds]
  cases rest with
  | nil => rfl
  | cons c r =>
    have hc : c.isDigit = false := by
      have h2 := hrest
      simp only [numBoundary, Bool.not_eq_true'] at h2
      simp only [Bool.or_eq_false_iff] at h2
      exact h2.1.1.1
    exact dropWhile_cons_false Char.isDigit c r hc

theorem parseFrac_boundary (l : List Char) (h : numBoundary l = true) : parseFrac l = some l := by
  cases l with
  | nil => rfl
  | cons c r =>
    have hc : ¬(c = '.') := by
      simp only [numBoundary, Bool.not_eq_true', Bool.or_eq_false_iff] at h
      have h2 := h.1.1.2
      simpa [decide_eq_false_iff_not] using h2
    rw [parseFrac.eq_def]
    simp only []
    rw [if_neg hc]

theorem parseExp_boundary (l : List Char) (h : numBoundary l = true) : parseExp l = some l := by
  cases l with
  | nil => rfl
  | cons c r =>
    have hc : ¬(c = 'e' ∨ c = 'E') := by
      simp only [numBoundary, Bool.not_eq_true', Bool.or_eq_false_iff] at h
      have h1 := h.1.2
      have h2 := h.2
      rw [decide_eq_false_iff_not] at h1 h2
      exact fun e => e.elim h1 h2
    rw [parseExp.eq_def]
    simp only []
    rw [if_neg hc]

theorem digitChar_isDigit (n : Nat) (h : n < 10) : (Char.ofNat (48 + n)).isDigit = true := by
  interval_cases n <;> decide

theorem natDigitsFuel_digits :
    ∀ (f n : Nat), n < 10 ^ (f + 1) →
      natDigitsFuel (f + 1) n ≠ [] ∧ ∀ c ∈ natDigitsFuel (f + 1) n, c.isDigit = true := by
  intro f
  induction f with
  | zero =>
    intro n h
    have hn : n < 10 := by simpa using h
    rw [natDigitsFuel, if_pos hn]
    refine ⟨by simp, ?_⟩
    intro c hc
    simp only [List.mem_singleton] at hc
    subst hc
    exact digitChar_isDigit n hn
  | succ f ih =>
    intro n h
    by_cases hn : n < 10
    · rw [natDigitsFuel, if_pos hn]
      refine ⟨by simp, ?_⟩
      intro c hc
      simp only [List.mem_singleton] at hc
      subst hc
      exact digitChar_isDigit n hn
    · rw [natDigitsFuel, if_neg hn]
      have hdiv : n / 10 < 10 ^ (f + 1) := by
        rw [pow_succ] at h
        omega
      obtain ⟨hne, hall⟩ := ih (n / 10) hdiv
      refine ⟨by simp, ?_⟩
      intro c hc
      rw [List.mem_append] at hc
      rcases hc with hc | hc
      · exact hall c hc
      · simp only [List.mem_singleton] at hc
        subst hc
        exact digitChar_isDigit (n % 10) (Nat.mod_lt n (by omega))

theorem natStr_digits (n : Nat) :
    (natStr n).data ≠ [] ∧ ∀ c ∈ (natStr n).data, c.isDigit = true := by
  have h : n < 10 ^ (n + 1) := by
    calc n < 10 ^ n := Nat.lt_pow_self (by omega) n
    _ ≤ 10 ^ (n + 1) := Nat.pow_le_pow_right (by omega) (by omega)
  exact natDigitsFuel_digits n n h

theorem parseNumber_digits (ds rest : List Char) (hne : ds ≠ [])
    (hds : ∀ c ∈ ds, c.isDigit = true) (hrest : numBoundary rest = true) :
    parseNumber (ds ++ rest) = some rest := by
  match ds, hne with
  | d :: dt, _ =>
    have hd : d.isDigit = true := hds d (by simp)
    have hdm : ¬(d = '-') := fun e => absurd hd (by subst e; decide)
    rw [List.cons_append, parseNumber.eq_def]
    simp only []
    rw [if_neg hdm]
    simp only []
    rw [if_pos hd]
    rw [dropWhile_digits dt rest (fun c hc => hds c (by simp [hc])) hrest]
    rw [parseFrac_boundary rest hrest]
    exact parseExp_boundary rest hrest

theorem numBoundary_comma (rest : List Char) : numBoundary (',' :: rest) = true := rfl

theorem parseNumber_neg_digits (ds rest : List Char) (hne : ds ≠ [])
    (hds : ∀ c ∈ ds, c.isDigit = true) (hrest : numBoundary rest = true) :
    parseNumber ('-' :: (ds ++ rest)) = some rest := by
  match ds, hne with
  | d :: dt, _ =>
    have hd : d.isDigit = true := hds d (by simp)
    rw [parseNumber.eq_def]
    simp only []
    rw [if_pos trivial]
    rw [List.cons_append]
    simp only []
    rw [if_pos hd]
    rw [dropWhile_digits dt rest (fun c hc => hds c (by simp [hc])) hrest]
    rw [parseFrac_boundary rest hrest]
    exact parseExp_boundary rest hrest

theorem parseJ_val_quote (f : Nat) (rest : List Char) :
    parseJ (f + 1) PMode.val ('"' :: rest) = strChars rest := by
  rw [parseJ.eq_def]
  simp

theorem parseJ_val_obj (f : Nat) (rest : List Char) :
    parseJ (f + 1) PMode.val ('{' :: rest) =
      if (skipWS rest).head? = some '}' then some (skipWS rest).tail
      else parseJ f PMode.members (skipWS rest) := by
  rw [parseJ.eq_def]
  simp

theorem parseJ_val_number (f : Nat) (c : Char) (rest : List Char)
    (h1 : ¬ c = '"') (h2 : ¬ c = '{') (h3 : ¬ c = '[') (h4 : ¬ c = 't') (h5 : ¬ c = 'f')
    (h6 : ¬ c = 'n') :
    parseJ (f + 1) PMode.val (c :: rest) = parseNumber (c :: rest) := by
  rw [parseJ.eq_def]
  simp only []
  rw [if_neg h1, if_neg h2, if_neg h3, if_neg h4, if_neg h5, if_neg h6]

theorem parseJ_members_quote (f : Nat) (rest : List Char) :
    parseJ (f + 1) PMode.members ('"' :: rest) =
      match strChars rest with
      | none => none
      | some r1 =>
        if (skipWS r1).head? = some ':' then
          match parseJ f PMode.val (skipWS (skipWS r1).tail) with
          | none => none
          | some r3 =>
            if (skipWS r3).head? = some ',' then
              parseJ f PMode.members (skipWS (skipWS r3).tail)
            else if (skipWS r3).head? = some '}' then some (skipWS r3).tail
            else none
        else none := by
  rw [parseJ.eq_def]
  simp

theorem char_isDigit_ne (c : Char) (h : c.isDigit = true) :
    ¬ c = '"' ∧ ¬ c = '{' ∧ ¬ c = '[' ∧ ¬ c = 't' ∧ ¬ c = 'f' ∧ ¬ c = 'n' ∧ ¬ c = '-' := by
  refine ⟨?_, ?_, ?_, ?_, ?_, ?_, ?_⟩ <;> intro e <;> subst e <;> exact absurd h (by decide)

theorem intStr_data_shape (i : Int) :
    (i < 0 ∧ (intStr i).data = '-' :: (natStr i.natAbs).data) ∨
    (0 ≤ i ∧ (intStr i).data = (natStr i.toNat).data) := by
  by_cases h : i < 0
  · left
    refine ⟨h, ?_⟩
    rw [intStr, if_pos h, String.data_append]
    rfl
  · right
    exact ⟨by omega, by rw [intStr, if_neg h]⟩

theorem ValFrag_intStr (i : Int) : ValFrag (intStr i).data := by
  obtain ⟨hne, hds⟩ := natStr_digits i.natAbs
  obtain ⟨hne2, hds2⟩ := natStr_digits i.toNat
  rcases intStr_data_shape i with ⟨hneg, hdat⟩ | ⟨hpos, hdat⟩
  · constructor
    · intro X
      rw [hdat, List.cons_append]
      exact skipWS_cons_not '-' _ (by decide)
    · intro f rest hf hb
      rw [hdat] at hf ⊢
      obtain ⟨f2, rfl⟩ : ∃ f2, f = f2 + 1 := ⟨f - 1, by simp at hf; omega⟩
      rw [List.cons_append]
      rw [parseJ_val_number f2 '-' _ (by decide) (by decide) (by decide) (by decide) (by decide)
        (by decide)]
      exact parseNumber_neg_digits _ rest hne hds hb
  · constructor
    · intro X
      rw [hdat]
      match (natStr i.toNat).data, hne2, hds2 with
      | d :: dt, _, hds2 =>
        rw [List.cons_append]
        exact skipWS_cons_not d _ (isWS_false_of_isDigit d (hds2 d (by simp)))
    · intro f rest hf hb
      rw [hdat] at hf ⊢
      match (natStr i.toNat).data, hne2, hds2, hf with
      | d :: dt, _, hds2, hf =>
        have hd : d.isDigit = true := hds2 d (by simp)
        obtain ⟨hq, hbr, hsq, ht, hfa, hn, hm⟩ := char_isDigit_ne d hd
        obtain ⟨f2, rfl⟩ : ∃ f2, f = f2 + 1 := ⟨f - 1, by simp at hf; omega⟩
        rw [List.cons_append]
        rw [parseJ_val_number f2 d _ hq hbr hsq ht hfa hn]
        rw [show d :: (dt ++ rest) = (d :: dt) ++ rest from rfl]
        exact parseNumber_digits (d :: dt) rest (by simp) hds2 hb

theorem parseJ_member_peel (name w v rest : List Char) (f : Nat)
    (hname : SafeChars name) (hw : allWS w) (hv : ValFrag v)
    (hf : v.length + rest.length + 1 ≤ f) :
    parseJ (f + 1) PMode.members ('"' :: (name ++ '"' :: ':' :: (w ++ (v ++ ',' :: rest)))) =
      parseJ f PMode.members (skipWS rest) := by
  rw [parseJ_members_quote]
  rw [strChars_safe name _ hname]
  simp only []
  rw [skipWS_cons_not ':' _ (by decide)]
  simp only [List.head?_cons, List.tail_cons]
  rw [if_pos trivial]
  rw [skipWS_append_allWS w _ hw, hv.1 (',' :: rest)]
  rw [hv.2 f (',' :: rest) (by simp only [List.length_cons]; omega) (numBoundary_comma rest)]
  simp only []
  rw [skipWS_cons_not ',' _ (by decide)]
  simp only [List.head?_cons, List.tail_cons]
  rw [if_pos trivial]

theorem ValFrag_emptyObj : ValFrag ['{', '}'] := by
  constructor
  · intro X
    exact skipWS_cons_not '{' _ (by decide)
  · intro f rest hf _
    obtain ⟨f2, rfl⟩ : ∃ f2, f = f2 + 1 := ⟨f - 1, by simp at hf; omega⟩
    show parseJ (f2 + 1) PMode.val ('{' :: '}' :: rest) = some rest
    rw [parseJ_val_obj]
    rw [skipWS_cons_not '}' _ (by decide)]
    simp

theorem ValFrag_string (v : List Char) (h : SafeChars v) : ValFrag ('"' :: (v ++ ['"'])) := by
  constructor
  · intro X
    exact skipWS_cons_not '"' _ (by decide)
  · intro f rest hf _
    obtain ⟨f2, rfl⟩ : ∃ f2, f = f2 + 1 := ⟨f - 1, by simp at hf; omega⟩
    show parseJ (f2 + 1) PMode.val ('"' :: ((v ++ ['"']) ++ rest)) = some rest
    rw [parseJ_val_quote]
    rw [List.append_assoc, List.singleton_append]
    exact strChars_safe v rest h

theorem memberFrag_head (F : List Char) (h : MemberFrag F) (X : List Char) :
    skipWS (F ++ X) = F ++ X := by
  match F, h.1 with
  | c :: F2, hh =>
    have : c = '"' := by simpa using hh
    subst this
    exact skipWS_cons_not '"' _ (by decide)

theorem memberFrag_shape (name w v : List Char) (hname : SafeChars name) (hw : allWS w)
    (hv : ValFrag v) :
    MemberFrag ('"' :: (name ++ '"' :: ':' :: (w ++ (v ++ [','])))) := by
  constructor
  · rfl
  · intro f rest hf
    have he : ('"' :: (name ++ '"' :: ':' :: (w ++ (v ++ [','])))) ++ rest
        = '"' :: (name ++ '"' :: ':' :: (w ++ (v ++ ',' :: rest))) := by
      simp [List.append_assoc]
    rw [he]
    refine parseJ_member_peel name w v rest f hname hw hv ?_
    simp only [List.length_cons, List.length_append] at hf
    omega


theorem parseJ_member_last (name w v rest : List Char) (f : Nat)
    (hname : SafeChars name) (hw : allWS w) (hv : ValFrag v)
    (hb : numBoundary rest = true)
    (hf : v.length + rest.length ≤ f) :
    parseJ (f + 1) PMode.members ('"' :: (name ++ '"' :: ':' :: (w ++ (v ++ rest)))) =
      (if (skipWS rest).head? = some ',' then parseJ f PMode.members (skipWS (skipWS rest).tail)
       else if (skipWS rest).head? = some '}' then some (skipWS rest).tail else none) := by
  rw [parseJ_members_quote]
  rw [strChars_safe name _ hname]
  simp only []
  rw [skipWS_cons_not ':' _ (by decide)]
  simp only [List.head?_cons, List.tail_cons]
  rw [if_pos trivial]
  rw [skipWS_append_allWS w _ hw, hv.1 rest]
  rw [hv.2 f rest hf hb]

theorem parseJ_chain (ps : List (List Char × List Char)) :
    ∀ (rest : List Char) (f k : Nat),
      (∀ p ∈ ps, OptFrag p.1 ∧ allWS p.2) → 1 ≤ k →
      (fragJoin ps ++ rest).length + k ≤ f →
      ∃ g, rest.length + k ≤ g ∧
        parseJ f PMode.members (skipWS (fragJoin ps ++ rest)) =
          parseJ g PMode.members (skipWS rest) ∧
        ((skipWS rest).head? = some '"' →
          (skipWS (fragJoin ps ++ rest)).head? = some '"') := by
  induction ps with
  | nil =>
    intro rest f k _ hk hf
    exact ⟨f, by simpa [fragJoin] using hf, by rw [fragJoin, List.nil_append], by
      rw [fragJoin, List.nil_append]; exact fun h => h⟩
  | cons p t ih =>
    intro rest f k hps hk hf
    obtain ⟨F, w⟩ := p
    obtain ⟨hopt, hw⟩ := hps (F, w) (by simp)
    have ht : ∀ q ∈ t, OptFrag q.1 ∧ allWS q.2 := fun q hq => hps q (by simp [hq])
    rw [fragJoin] at hf ⊢
    rcases hopt with rfl | hmf
    · rw [List.nil_append] at hf ⊢
      rw [List.append_assoc, skipWS_append_allWS w _ hw]
      have hf2 : (fragJoin t ++ rest).length + k ≤ f := by
        simp only [List.length_append] at hf ⊢
        omega
      obtain ⟨g, hg, he, hh⟩ := ih rest f k ht hk hf2
      exact ⟨g, hg, he, fun h => hh h⟩
    · have hFne : F ≠ [] := by
        intro e
        rw [e] at hmf
        exact absurd hmf.1 (by simp)
      simp only [List.append_assoc] at hf ⊢
      have hpass : skipWS (F ++ (w ++ (fragJoin t ++ rest)))
          = F ++ (w ++ (fragJoin t ++ rest)) := memberFrag_head F hmf _
      obtain ⟨f2, rfl⟩ : ∃ f2, f = f2 + 1 := by
        refine ⟨f - 1, ?_⟩
        have h1 : 1 ≤ f := by
          simp only [List.length_append] at hf
          omega
        omega
      rw [hpass]
      rw [hmf.2 f2 (w ++ (fragJoin t ++ rest)) (by
        simp only [List.length_append] at hf ⊢
        omega)]
      rw [skipWS_append_allWS w _ hw]
      have hFlen : 1 ≤ F.length := by
        cases F with
        | nil => exact absurd rfl hFne
        | cons a b => simp
      have hlen : (fragJoin t ++ rest).length + k ≤ f2 := by
        simp only [List.length_append] at hf ⊢
        omega
      obtain ⟨g, hg, he, hh⟩ := ih rest f2 k ht hk hlen
      refine ⟨g, hg, he, fun h2 => ?_⟩
      match F, hmf.1 with
      | c :: F2, hh2 =>
        rw [List.cons_append]
        simpa using hh2


theorem renderRequest_data (cfg : SingularityConfig) :
    (renderRequest cfg).data =
      '\n' :: '{' :: '\n' :: ' ' :: ' ' :: ' ' :: ' ' :: (cfg.WriteOwners.data ++ (cfg.WriteRequiredSlaveAttributes.data ++ (cfg.WriteSchedule.data ++ ('"' :: ("killOldNonLongRunningTasksAfterMillis".data ++ '"' :: ':' :: ([' '] ++ ((intStr cfg.KillOldNonLongRunningTasksAfterMillis).data ++ ',' :: ('\n' :: '\t' :: ('"' :: ("numRetriesOnFailure".data ++ '"' :: ':' :: ([' '] ++ ((intStr cfg.NumRetriesOnFailure).data ++ ',' :: ('\n' :: '\t' :: ('"' :: ("requestType".data ++ '"' :: ':' :: ([' '] ++ (('"' :: (cfg.RequestType.data ++ ['"'])) ++ ',' :: ('\n' :: ' ' :: ' ' :: ' ' :: ' ' :: ('"' :: ("scheduledExpectedRuntimeMillis".data ++ '"' :: ':' :: ([' '] ++ ((intStr cfg.ScheduledExpectedRuntimeMillis).data ++ ',' :: ('\n' :: ' ' :: ' ' :: ' ' :: ' ' :: ('"' :: ("id".data ++ '"' :: ':' :: ([' '] ++ (('"' :: (cfg.RequestID.data ++ ['"'])) ++ '\n' :: '}' :: '\n' :: []))))))))))))))))))))))))))) := by
  simp only [renderRequest, String.data_append]
  simp [List.append_assoc]

theorem requestList_parses (O R S rt rid : List Char) (kill retries serm : Int) (f : Nat)
    (hO : OptFrag O) (hR : OptFrag R) (hS : OptFrag S)
    (hrt : SafeChars rt) (hrid : SafeChars rid)
    (hf : (O ++ (R ++ (S ++ ('"' :: ("killOldNonLongRunningTasksAfterMillis".data ++ '"' :: ':' :: ([' '] ++ ((intStr kill).data ++ ',' :: ('\n' :: '\t' :: ('"' :: ("numRetriesOnFailure".data ++ '"' :: ':' :: ([' '] ++ ((intStr retries).data ++ ',' :: ('\n' :: '\t' :: ('"' :: ("requestType".data ++ '"' :: ':' :: ([' '] ++ (('"' :: (rt ++ ['"'])) ++ ',' :: ('\n' :: ' ' :: ' ' :: ' ' :: ' ' :: ('"' :: ("scheduledExpectedRuntimeMillis".data ++ '"' :: ':' :: ([' '] ++ ((intStr serm).data ++ ',' :: ('\n' :: ' ' :: ' ' :: ' ' :: ' ' :: ('"' :: ("id".data ++ '"' :: ':' :: ([' '] ++ (('"' :: (rid ++ ['"'])) ++ ('\n' :: '}' :: '\n' :: ([] : List Char))))))))))))))))))))))))))))).length + 2 ≤ f) :
    parseJ (f + 1) PMode.val
      ('{' :: '\n' :: ' ' :: ' ' :: ' ' :: ' ' :: (O ++ (R ++ (S ++ ('"' :: ("killOldNonLongRunningTasksAfterMillis".data ++ '"' :: ':' :: ([' '] ++ ((intStr kill).data ++ ',' :: ('\n' :: '\t' :: ('"' :: ("numRetriesOnFailure".data ++ '"' :: ':' :: ([' '] ++ ((intStr retries).data ++ ',' :: ('\n' :: '\t' :: ('"' :: ("requestType".data ++ '"' :: ':' :: ([' '] ++ (('"' :: (rt ++ ['"'])) ++ ',' :: ('\n' :: ' ' :: ' ' :: ' ' :: ' ' :: ('"' :: ("scheduledExpectedRuntimeMillis".data ++ '"' :: ':' :: ([' '] ++ ((intStr serm).data ++ ',' :: ('\n' :: ' ' :: ' ' :: ' ' :: ' ' :: ('"' :: ("id".data ++ '"' :: ':' :: ([' '] ++ (('"' :: (rid ++ ['"'])) ++ ('\n' :: '}' :: '\n' :: ([] : List Char))))))))))))))))))))))))))))))
      = some ['\n'] := by
  rw [parseJ_val_obj]
  rw [skipWS_cons_ws '\n' _ (by decide), skipWS_cons_ws ' ' _ (by decide),
    skipWS_cons_ws ' ' _ (by decide), skipWS_cons_ws ' ' _ (by decide),
    skipWS_cons_ws ' ' _ (by decide)]
  have harea : fragJoin [(O, ([] : List Char)), (R, ([] : List Char)), (S, ([] : List Char))] ++
      ('"' :: ("killOldNonLongRunningTasksAfterMillis".data ++ '"' :: ':' :: ([' '] ++ ((intStr kill).data ++ ',' :: ('\n' :: '\t' :: ('"' :: ("numRetriesOnFailure".data ++ '"' :: ':' :: ([' '] ++ ((intStr retries).data ++ ',' :: ('\n' :: '\t' :: ('"' :: ("requestType".data ++ '"' :: ':' :: ([' '] ++ (('"' :: (rt ++ ['"'])) ++ ',' :: ('\n' :: ' ' :: ' ' :: ' ' :: ' ' :: ('"' :: ("scheduledExpectedRuntimeMillis".data ++ '"' :: ':' :: ([' '] ++ ((intStr serm).data ++ ',' :: ('\n' :: ' ' :: ' ' :: ' ' :: ' ' :: ('"' :: ("id".data ++ '"' :: ':' :: ([' '] ++ (('"' :: (rid ++ ['"'])) ++ ('\n' :: '}' :: '\n' :: ([] : List Char)))))))))))))))))))))))))) = O ++ (R ++ (S ++ ('"' :: ("killOldNonLongRunningTasksAfterMillis".data ++ '"' :: ':' :: ([' '] ++ ((intStr kill).data ++ ',' :: ('\n' :: '\t' :: ('"' :: ("numRetriesOnFailure".data ++ '"' :: ':' :: ([' '] ++ ((intStr retries).data ++ ',' :: ('\n' :: '\t' :: ('"' :: ("requestType".data ++ '"' :: ':' :: ([' '] ++ (('"' :: (rt ++ ['"'])) ++ ',' :: ('\n' :: ' ' :: ' ' :: ' ' :: ' ' :: ('"' :: ("scheduledExpectedRuntimeMillis".data ++ '"' :: ':' :: ([' '] ++ ((intStr serm).data ++ ',' :: ('\n' :: ' ' :: ' ' :: ' ' :: ' ' :: ('"' :: ("id".data ++ '"' :: ':' :: ([' '] ++ (('"' :: (rid ++ ['"'])) ++ ('\n' :: '}' :: '\n' :: ([] : List Char)))))))))))))))))))))))))))) := by
    simp [fragJoin]
  obtain ⟨g, hg, he, hh⟩ := parseJ_chain
    [(O, ([] : List Char)), (R, ([] : List Char)), (S, ([] : List Char))]
    ('"' :: ("killOldNonLongRunningTasksAfterMillis".data ++ '"' :: ':' :: ([' '] ++ ((intStr kill).data ++ ',' :: ('\n' :: '\t' :: ('"' :: ("numRetriesOnFailure".data ++ '"' :: ':' :: ([' '] ++ ((intStr retries).data ++ ',' :: ('\n' :: '\t' :: ('"' :: ("requestType".data ++ '"' :: ':' :: ([' '] ++ (('"' :: (rt ++ ['"'])) ++ ',' :: ('\n' :: ' ' :: ' ' :: ' ' :: ' ' :: ('"' :: ("scheduledExpectedRuntimeMillis".data ++ '"' :: ':' :: ([' '] ++ ((intStr serm).data ++ ',' :: ('\n' :: ' ' :: ' ' :: ' ' :: ' ' :: ('"' :: ("id".data ++ '"' :: ':' :: ([' '] ++ (('"' :: (rid ++ ['"'])) ++ ('\n' :: '}' :: '\n' :: ([] : List Char)))))))))))))))))))))))))) f 2
    (by
      intro p hp
      simp only [List.mem_cons, List.mem_singleton] at hp
      rcases hp with rfl | rfl | rfl | h
      · exact ⟨hO, by intro c hc; simp at hc⟩
      · exact ⟨hR, by intro c hc; simp at hc⟩
      · exact ⟨hS, by intro c hc; simp at hc⟩
      · simp at h)
    (by omega)
    (by rw [harea]; omega)
  rw [harea] at he hh
  have hT1 : skipWS ('"' :: ("killOldNonLongRunningTasksAfterMillis".data ++ '"' :: ':' :: ([' '] ++ ((intStr kill).data ++ ',' :: ('\n' :: '\t' :: ('"' :: ("numRetriesOnFailure".data ++ '"' :: ':' :: ([' '] ++ ((intStr retries).data ++ ',' :: ('\n' :: '\t' :: ('"' :: ("requestType".data ++ '"' :: ':' :: ([' '] ++ (('"' :: (rt ++ ['"'])) ++ ',' :: ('\n' :: ' ' :: ' ' :: ' ' :: ' ' :: ('"' :: ("scheduledExpectedRuntimeMillis".data ++ '"' :: ':' :: ([' '] ++ ((intStr serm).data ++ ',' :: ('\n' :: ' ' :: ' ' :: ' ' :: ' ' :: ('"' :: ("id".data ++ '"' :: ':' :: ([' '] ++ (('"' :: (rid ++ ['"'])) ++ ('\n' :: '}' :: '\n' :: ([] : List Char)))))))))))))))))))))))))) = ('"' :: ("killOldNonLongRunningTasksAfterMillis".data ++ '"' :: ':' :: ([' '] ++ ((intStr kill).data ++ ',' :: ('\n' :: '\t' :: ('"' :: ("numRetriesOnFailure".data ++ '"' :: ':' :: ([' '] ++ ((intStr retries).data ++ ',' :: ('\n' :: '\t' :: ('"' :: ("requestType".data ++ '"' :: ':' :: ([' '] ++ (('"' :: (rt ++ ['"'])) ++ ',' :: ('\n' :: ' ' :: ' ' :: ' ' :: ' ' :: ('"' :: ("scheduledExpectedRuntimeMillis".data ++ '"' :: ':' :: ([' '] ++ ((intStr serm).data ++ ',' :: ('\n' :: ' ' :: ' ' :: ' ' :: ' ' :: ('"' :: ("id".data ++ '"' :: ':' :: ([' '] ++ (('"' :: (rid ++ ['"'])) ++ ('\n' :: '}' :: '\n' :: ([] : List Char)))))))))))))))))))))))))) := skipWS_cons_not '"' _ (by decide)
  have hhead := hh (by rw [hT1]; rfl)
  rw [if_neg (by rw [hhead]; decide)]
  rw [he, hT1]
  have hg2 : 2 ≤ g := by omega
  obtain ⟨g1, rfl⟩ : ∃ g1, g = g1 + 1 := ⟨g - 1, by omega⟩
  simp only [List.length_cons, List.length_append] at hg
  rw [parseJ_member_peel "killOldNonLongRunningTasksAfterMillis".data [' ']
    (intStr kill).data _ g1 (by decide) (by decide) (ValFrag_intStr kill)
    (by simp only [List.length_cons, List.length_append]; omega)]
  rw [skipWS_cons_ws '\n' _ (by decide), skipWS_cons_ws '\t' _ (by decide),
    skipWS_cons_not '"' _ (by decide)]
  obtain ⟨g2, rfl⟩ : ∃ g2, g1 = g2 + 1 := ⟨g1 - 1, by omega⟩
  rw [parseJ_member_peel "numRetriesOnFailure".data [' ']
    (intStr retries).data _ g2 (by decide) (by decide) (ValFrag_intStr retries)
    (by simp only [List.length_cons, List.length_append]; omega)]
  rw [skipWS_cons_ws '\n' _ (by decide), skipWS_cons_ws '\t' _ (by decide),
    skipWS_cons_not '"' _ (by decide)]
  obtain ⟨g3, rfl⟩ : ∃ g3, g2 = g3 + 1 := ⟨g2 - 1, by omega⟩
  rw [parseJ_member_peel "requestType".data [' ']
    ('"' :: (rt ++ ['"'])) _ g3 (by decide) (by decide) (ValFrag_string rt hrt)
    (by simp only [List.length_cons, List.length_append]; omega)]
  rw [skipWS_cons_ws '\n' _ (by decide), skipWS_cons_ws ' ' _ (by decide),
    skipWS_cons_ws ' ' _ (by decide), skipWS_cons_ws ' ' _ (by decide),
    skipWS_cons_ws ' ' _ (by decide), skipWS_cons_not '"' _ (by decide)]
  obtain ⟨g4, rfl⟩ : ∃ g4, g3 = g4 + 1 := ⟨g3 - 1, by omega⟩
  rw [parseJ_member_peel "scheduledExpectedRuntimeMillis".data [' ']
    (intStr serm).data _ g4 (by decide) (by decide) (ValFrag_intStr serm)
    (by simp only [List.length_cons, List.length_append]; omega)]
  rw [skipWS_cons_ws '\n' _ (by decide), skipWS_cons_ws ' ' _ (by decide),
    skipWS_cons_ws ' ' _ (by decide), skipWS_cons_ws ' ' _ (by decide),
    skipWS_cons_ws ' ' _ (by decide), skipWS_cons_not '"' _ (by decide)]
  obtain ⟨g5, rfl⟩ : ∃ g5, g4 = g5 + 1 := ⟨g4 - 1, by omega⟩
  rw [parseJ_member_last "id".data [' '] ('"' :: (rid ++ ['"'])) ('\n' :: '}' :: '\n' :: ([] : List Char)) g5
    (by decide) (by decide) (ValFrag_string rid hrid) (by decide)
    (by simp only [List.length_cons, List.length_append]; omega)]
  rw [show skipWS ('\n' :: '}' :: '\n' :: ([] : List Char)) = '}' :: '\n' :: [] from rfl]
  rw [if_neg (by decide), if_pos (by decide)]
  rfl


theorem renderRequest_valid (cfg : SingularityConfig)
    (hO : OptFrag cfg.WriteOwners.data)
    (hR : OptFrag cfg.WriteRequiredSlaveAttributes.data)
    (hS : OptFrag cfg.WriteSchedule.data)
    (hrt : SafeChars cfg.RequestType.data)
    (hrid : SafeChars cfg.RequestID.data) :
    checkJSON (renderRequest cfg) = true := by
  have hkey : ∀ f : Nat, ((renderRequest cfg).data).length + 2 ≤ f + 1 →
      parseJ (f + 1) PMode.val (skipWS (renderRequest cfg).data) = some ['\n'] := by
    intro f hf
    rw [renderRequest_data cfg] at hf ⊢
    rw [skipWS_cons_ws '\n' _ (by decide), skipWS_cons_not '{' _ (by decide)]
    refine requestList_parses _ _ _ _ _ _ _ _ f hO hR hS hrt hrid ?_
    simp [List.length_append] at hf ⊢
    omega
  unfold checkJSON
  obtain ⟨f, hfe⟩ : ∃ f, 2 * (renderRequest cfg).data.length + 16 = f + 1 :=
    ⟨2 * (renderRequest cfg).data.length + 15, by omega⟩
  rw [hfe, hkey f (by omega)]
  rfl

theorem renderDeploy_data (cfg : SingularityConfig) :
    (renderDeploy cfg).data =
      (fun (A CI E RES rid did : List Char) => '\n' :: '{' :: '\n' :: ' ' :: ' ' :: ' ' :: ' ' :: ('"' :: ("deploy".data ++ '"' :: ':' :: ([' '] ++ (('{' :: '\n' :: ' ' :: ' ' :: ' ' :: ' ' :: ' ' :: ' ' :: ' ' :: ' ' :: (A ++ ('\n' :: '\t' :: '\t' :: [] ++ (CI ++ ('\n' :: '\t' :: '\t' :: [] ++ (E ++ ('\n' :: ' ' :: ' ' :: ' ' :: ' ' :: ' ' :: ' ' :: ' ' :: ' ' :: [] ++ (RES ++ ('\n' :: ' ' :: ' ' :: ' ' :: ' ' :: ' ' :: ' ' :: ' ' :: ' ' :: [] ++ ('"' :: ("requestId".data ++ '"' :: ':' :: ([' '] ++ (('"' :: (rid ++ ['"'])) ++ ',' :: ('\n' :: ' ' :: ' ' :: ' ' :: ' ' :: ' ' :: ' ' :: ' ' :: ' ' :: ('"' :: ("id".data ++ '"' :: ':' :: ([' '] ++ (('"' :: (did ++ ['"'])) ++ ('\n' :: ' ' :: ' ' :: ' ' :: ' ' :: '}' :: []))))))))))))))))))) ++ ('\n' :: '}' :: '\n' :: []))))))
        cfg.WriteArguments.data cfg.WriteContainerInfo.data cfg.WriteEnv.data
        cfg.WriteResources.data cfg.RequestID.data cfg.DeployID.data := by
  simp only [renderDeploy, String.data_append]
  simp [List.append_assoc]

theorem deployInner_ValFrag (A CI E RES rid did : List Char)
    (hA : OptFrag A) (hCI : OptFrag CI) (hE : OptFrag E) (hRES : OptFrag RES)
    (hrid : SafeChars rid) (hdid : SafeChars did) :
    ValFrag ('{' :: '\n' :: ' ' :: ' ' :: ' ' :: ' ' :: ' ' :: ' ' :: ' ' :: ' ' :: (A ++ ('\n' :: '\t' :: '\t' :: [] ++ (CI ++ ('\n' :: '\t' :: '\t' :: [] ++ (E ++ ('\n' :: ' ' :: ' ' :: ' ' :: ' ' :: ' ' :: ' ' :: ' ' :: ' ' :: [] ++ (RES ++ ('\n' :: ' ' :: ' ' :: ' ' :: ' ' :: ' ' :: ' ' :: ' ' :: ' ' :: [] ++ ('"' :: ("requestId".data ++ '"' :: ':' :: ([' '] ++ (('"' :: (rid ++ ['"'])) ++ ',' :: ('\n' :: ' ' :: ' ' :: ' ' :: ' ' :: ' ' :: ' ' :: ' ' :: ' ' :: ('"' :: ("id".data ++ '"' :: ':' :: ([' '] ++ (('"' :: (did ++ ['"'])) ++ ('\n' :: ' ' :: ' ' :: ' ' :: ' ' :: '}' :: []))))))))))))))))))) := by
  constructor
  · intro X
    exact skipWS_cons_not '{' _ (by decide)
  · intro f rest hf hb
    have hpush : ('{' :: '\n' :: ' ' :: ' ' :: ' ' :: ' ' :: ' ' :: ' ' :: ' ' :: ' ' :: (A ++ ('\n' :: '\t' :: '\t' :: [] ++ (CI ++ ('\n' :: '\t' :: '\t' :: [] ++ (E ++ ('\n' :: ' ' :: ' ' :: ' ' :: ' ' :: ' ' :: ' ' :: ' ' :: ' ' :: [] ++ (RES ++ ('\n' :: ' ' :: ' ' :: ' ' :: ' ' :: ' ' :: ' ' :: ' ' :: ' ' :: [] ++ ('"' :: ("requestId".data ++ '"' :: ':' :: ([' '] ++ (('"' :: (rid ++ ['"'])) ++ ',' :: ('\n' :: ' ' :: ' ' :: ' ' :: ' ' :: ' ' :: ' ' :: ' ' :: ' ' :: ('"' :: ("id".data ++ '"' :: ':' :: ([' '] ++ (('"' :: (did ++ ['"'])) ++ ('\n' :: ' ' :: ' ' :: ' ' :: ' ' :: '}' :: []))))))))))))))))))) ++ rest = '{' :: '\n' :: ' ' :: ' ' :: ' ' :: ' ' :: ' ' :: ' ' :: ' ' :: ' ' :: (A ++ ('\n' :: '\t' :: '\t' :: [] ++ (CI ++ ('\n' :: '\t' :: '\t' :: [] ++ (E ++ ('\n' :: ' ' :: ' ' :: ' ' :: ' ' :: ' ' :: ' ' :: ' ' :: ' ' :: [] ++ (RES ++ ('\n' :: ' ' :: ' ' :: ' ' :: ' ' :: ' ' :: ' ' :: ' ' :: ' ' :: [] ++ ('"' :: ("requestId".data ++ '"' :: ':' :: ([' '] ++ (('"' :: (rid ++ ['"'])) ++ ',' :: ('\n' :: ' ' :: ' ' :: ' ' :: ' ' :: ' ' :: ' ' :: ' ' :: ' ' :: ('"' :: ("id".data ++ '"' :: ':' :: ([' '] ++ (('"' :: (did ++ ['"'])) ++ ('\n' :: ' ' :: ' ' :: ' ' :: ' ' :: '}' :: rest)))))))))))))))))) := by
      simp [List.append_assoc]
    rw [hpush]
    obtain ⟨f2, rfl⟩ : ∃ f2, f = f2 + 1 :=
      ⟨f - 1, by simp only [List.length_cons] at hf; omega⟩
    rw [parseJ_val_obj]
    rw [skipWS_cons_ws '\n' _ (by decide), skipWS_cons_ws ' ' _ (by decide),
      skipWS_cons_ws ' ' _ (by decide), skipWS_cons_ws ' ' _ (by decide),
      skipWS_cons_ws ' ' _ (by decide), skipWS_cons_ws ' ' _ (by decide),
      skipWS_cons_ws ' ' _ (by decide), skipWS_cons_ws ' ' _ (by decide),
      skipWS_cons_ws ' ' _ (by decide)]
    have harea : fragJoin [(A, '\n' :: '\t' :: '\t' :: []), (CI, '\n' :: '\t' :: '\t' :: []),
        (E, '\n' :: ' ' :: ' ' :: ' ' :: ' ' :: ' ' :: ' ' :: ' ' :: ' ' :: []),
        (RES, '\n' :: ' ' :: ' ' :: ' ' :: ' ' :: ' ' :: ' ' :: ' ' :: ' ' :: [])] ++
        ('"' :: ("requestId".data ++ '"' :: ':' :: ([' '] ++ (('"' :: (rid ++ ['"'])) ++ ',' :: ('\n' :: ' ' :: ' ' :: ' ' :: ' ' :: ' ' :: ' ' :: ' ' :: ' ' :: ('"' :: ("id".data ++ '"' :: ':' :: ([' '] ++ (('"' :: (did ++ ['"'])) ++ ('\n' :: ' ' :: ' ' :: ' ' :: ' ' :: '}' :: rest)))))))))) =
        A ++ ('\n' :: '\t' :: '\t' :: [] ++ (CI ++ ('\n' :: '\t' :: '\t' :: [] ++ (E ++ ('\n' :: ' ' :: ' ' :: ' ' :: ' ' :: ' ' :: ' ' :: ' ' :: ' ' :: [] ++ (RES ++ ('\n' :: ' ' :: ' ' :: ' ' :: ' ' :: ' ' :: ' ' :: ' ' :: ' ' :: [] ++ ('"' :: ("requestId".data ++ '"' :: ':' :: ([' '] ++ (('"' :: (rid ++ ['"'])) ++ ',' :: ('\n' :: ' ' :: ' ' :: ' ' :: ' ' :: ' ' :: ' ' :: ' ' :: ' ' :: ('"' :: ("id".data ++ '"' :: ':' :: ([' '] ++ (('"' :: (did ++ ['"'])) ++ ('\n' :: ' ' :: ' ' :: ' ' :: ' ' :: '}' :: rest))))))))))))))))) := by
      simp [fragJoin, List.append_assoc]
    obtain ⟨g, hg, he, hh⟩ := parseJ_chain
      [(A, '\n' :: '\t' :: '\t' :: []), (CI, '\n' :: '\t' :: '\t' :: []),
        (E, '\n' :: ' ' :: ' ' :: ' ' :: ' ' :: ' ' :: ' ' :: ' ' :: ' ' :: []),
        (RES, '\n' :: ' ' :: ' ' :: ' ' :: ' ' :: ' ' :: ' ' :: ' ' :: ' ' :: [])]
      ('"' :: ("requestId".data ++ '"' :: ':' :: ([' '] ++ (('"' :: (rid ++ ['"'])) ++ ',' :: ('\n' :: ' ' :: ' ' :: ' ' :: ' ' :: ' ' :: ' ' :: ' ' :: ' ' :: ('"' :: ("id".data ++ '"' :: ':' :: ([' '] ++ (('"' :: (did ++ ['"'])) ++ ('\n' :: ' ' :: ' ' :: ' ' :: ' ' :: '}' :: rest)))))))))) f2 2
      (by
        intro p hp
        simp only [List.mem_cons, List.mem_singleton] at hp
        rcases hp with rfl | rfl | rfl | rfl | h
        · exact ⟨hA, (by decide : allWS ('\n' :: '\t' :: '\t' :: []))⟩
        · exact ⟨hCI, (by decide : allWS ('\n' :: '\t' :: '\t' :: []))⟩
        · exact ⟨hE,
            (by decide : allWS ('\n' :: ' ' :: ' ' :: ' ' :: ' ' :: ' ' :: ' ' :: ' ' :: ' ' :: []))⟩
        · exact ⟨hRES,
            (by decide : allWS ('\n' :: ' ' :: ' ' :: ' ' :: ' ' :: ' ' :: ' ' :: ' ' :: ' ' :: []))⟩
        · simp at h)
      (by omega)
      (by
        rw [harea]
        simp only [List.length_cons, List.length_append] at hf ⊢
        omega)
    rw [harea] at he hh
    have hT1 : skipWS ('"' :: ("requestId".data ++ '"' :: ':' :: ([' '] ++ (('"' :: (rid ++ ['"'])) ++ ',' :: ('\n' :: ' ' :: ' ' :: ' ' :: ' ' :: ' ' :: ' ' :: ' ' :: ' ' :: ('"' :: ("id".data ++ '"' :: ':' :: ([' '] ++ (('"' :: (did ++ ['"'])) ++ ('\n' :: ' ' :: ' ' :: ' ' :: ' ' :: '}' :: rest)))))))))) = ('"' :: ("requestId".data ++ '"' :: ':' :: ([' '] ++ (('"' :: (rid ++ ['"'])) ++ ',' :: ('\n' :: ' ' :: ' ' :: ' ' :: ' ' :: ' ' :: ' ' :: ' ' :: ' ' :: ('"' :: ("id".data ++ '"' :: ':' :: ([' '] ++ (('"' :: (did ++ ['"'])) ++ ('\n' :: ' ' :: ' ' :: ' ' :: ' ' :: '}' :: rest)))))))))) := skipWS_cons_not '\"' _ (by decide)
    have hhead := hh (by rw [hT1]; rfl)
    rw [if_neg (by rw [hhead]; decide)]
    rw [he, hT1]
    simp only [List.length_cons, List.length_append] at hg
    obtain ⟨g1, rfl⟩ : ∃ g1, g = g1 + 1 := ⟨g - 1, by omega⟩
    rw [parseJ_member_peel "requestId".data [' '] ('\"' :: (rid ++ ['\"'])) _ g1
      (by decide) (by decide) (ValFrag_string rid hrid)
      (by simp only [List.length_cons, List.length_append]; omega)]
    rw [skipWS_cons_ws '\n' _ (by decide), skipWS_cons_ws ' ' _ (by decide),
      skipWS_cons_ws ' ' _ (by decide), skipWS_cons_ws ' ' _ (by decide),
      skipWS_cons_ws ' ' _ (by decide), skipWS_cons_ws ' ' _ (by decide),
      skipWS_cons_ws ' ' _ (by decide), skipWS_cons_ws ' ' _ (by decide),
      skipWS_cons_ws ' ' _ (by decide), skipWS_cons_not '\"' _ (by decide)]
    obtain ⟨g2, rfl⟩ : ∃ g2, g1 = g2 + 1 := ⟨g1 - 1, by omega⟩
    rw [parseJ_member_last "id".data [' '] ('\"' :: (did ++ ['\"']))
      ('\n' :: ' ' :: ' ' :: ' ' :: ' ' :: '}' :: rest) g2
      (by decide) (by decide) (ValFrag_string did hdid) rfl
      (by simp only [List.length_cons, List.length_append]; omega)]
    rw [show skipWS ('\n' :: ' ' :: ' ' :: ' ' :: ' ' :: '}' :: rest) = '}' :: rest from by
      rw [skipWS_cons_ws '\n' _ (by decide), skipWS_cons_ws ' ' _ (by decide),
        skipWS_cons_ws ' ' _ (by decide), skipWS_cons_ws ' ' _ (by decide),
        skipWS_cons_ws ' ' _ (by decide), skipWS_cons_not '}' _ (by decide)]]
    simp only [List.head?_cons, List.tail_cons]
    rw [if_neg (by decide), if_pos (by decide)]


theorem renderDeploy_valid (cfg : SingularityConfig)
    (hA : OptFrag cfg.WriteArguments.data)
    (hCI : OptFrag cfg.WriteContainerInfo.data)
    (hE : OptFrag cfg.WriteEnv.data)
    (hRES : OptFrag cfg.WriteResources.data)
    (hrid : SafeChars cfg.RequestID.data)
    (hdid : SafeChars cfg.DeployID.data) :
    checkJSON (renderDeploy cfg) = true := by
  have hVF := deployInner_ValFrag cfg.WriteArguments.data cfg.WriteContainerInfo.data
    cfg.WriteEnv.data cfg.WriteResources.data cfg.RequestID.data cfg.DeployID.data
    hA hCI hE hRES hrid hdid
  have hkey : ∀ f : Nat, ((renderDeploy cfg).data).length + 4 ≤ f + 1 →
      parseJ (f + 1) PMode.val (skipWS (renderDeploy cfg).data) = some ['\n'] := by
    intro f hf
    rw [renderDeploy_data cfg] at hf ⊢
    simp only [] at hf ⊢
    rw [skipWS_cons_ws '\n' _ (by decide), skipWS_cons_not '{' _ (by decide)]
    rw [parseJ_val_obj]
    rw [skipWS_cons_ws '\n' _ (by decide), skipWS_cons_ws ' ' _ (by decide),
      skipWS_cons_ws ' ' _ (by decide), skipWS_cons_ws ' ' _ (by decide),
      skipWS_cons_ws ' ' _ (by decide), skipWS_cons_not '\"' _ (by decide)]
    simp only [List.head?_cons]
    rw [if_neg (by decide)]
    obtain ⟨f2, rfl⟩ : ∃ f2, f = f2 + 1 :=
      ⟨f - 1, by simp only [List.length_cons] at hf; omega⟩
    rw [parseJ_members_quote]
    rw [strChars_safe "deploy".data _ (by decide)]
    simp only []
    rw [skipWS_cons_not ':' _ (by decide)]
    simp only [List.head?_cons, List.tail_cons]
    rw [if_pos trivial]
    rw [skipWS_append_allWS [' '] _ (by decide)]
    rw [hVF.1 ('\n' :: '}' :: '\n' :: [])]
    rw [hVF.2 f2 ('\n' :: '}' :: '\n' :: [])
      (by simp only [List.length_cons, List.length_append] at hf ⊢; omega) rfl]
    simp only []
    rw [show skipWS ('\n' :: '}' :: '\n' :: []) = '}' :: '\n' :: [] from rfl]
    simp only [List.head?_cons, List.tail_cons]
    rw [if_neg (by decide), if_pos (by decide)]
  unfold checkJSON
  obtain ⟨f, hfe⟩ : ∃ f, 2 * (renderDeploy cfg).data.length + 16 = f + 1 :=
    ⟨2 * (renderDeploy cfg).data.length + 15, by omega⟩
  rw [hfe, hkey f (by omega)]
  rfl

/-! ## The claims -/

/-- C8: for every key not containing the delimiter and every value (which
may itself contain the delimiter), `stringmap.Set` of `key=value` stores
exactly `value` under `key`, splitting only on the first `=`; a later `Set`
for the same key overwrites the prior value. -/
theorem claim_C8 (s : stringmap) (key value : String) (h : ('=' : Char) ∉ key.data) :
    stringmap.Set s (key ++ "=" ++ value) = some (mapPut s key value) ∧
    mapGet (mapPut s key value) key = some value ∧
    ∀ v2 : String, mapGet (mapPut (mapPut s key value) key v2) key = some v2 := by
  refine ⟨?_, mapGet_mapPut s key value, fun v2 => mapGet_mapPut (mapPut s key value) key v2⟩
  unfold stringmap.Set
  have hd : (key ++ "=" ++ value).data = key.data ++ '=' :: value.data := by
    rw [String.data_append, String.data_append,
      show ("=" : String).data = ['='] from rfl, List.append_assoc]
    rfl
  rw [hd, splitFirst_append_first '=' key.data value.data h]

/-- Witness for C8: the `EQUALS=this=that` example splits at the first
delimiter, and a later `Set` for `EQUALS` overwrites. -/
theorem claim_C8_witness :
    stringmap.Set [] ("EQUALS" ++ "=" ++ "this=that") = some (mapPut [] "EQUALS" "this=that") ∧
    mapGet (mapPut (mapPut [] "EQUALS" "this=that") "EQUALS" "other") "EQUALS" = some "other" :=
  ⟨(claim_C8 [] "EQUALS" "this=that" (by decide)).1,
   (claim_C8 [] "EQUALS" "this=that" (by decide)).2.2 "other"⟩

/-- C9: for every argument string without the `=` delimiter,
`stringmap.Set` is a fatal configuration error — the model returns `none`
(`log.Fatalf` terminates the process before any store update). -/
theorem claim_C9 (s : stringmap) (v : String) (h : ('=' : Char) ∉ v.data) :
    stringmap.Set s v = none := by
  unfold stringmap.Set
  rw [splitFirst_of_not_mem '=' v.data h]

/-- Witness for C9 at a concrete delimiter-free argument. -/
theorem claim_C9_witness : stringmap.Set [] "NOEQUALS" = none :=
  claim_C9 [] "NOEQUALS" (by decide)

/-- C10: with at least one `-var` override, the var-loading loop of
`loadConfig` writes into the never-allocated `singularityConfigData` map
and panics (result `none`); with no overrides the loop completes with the
map still nil. -/
theorem claim_C10 (vars : List (String × String)) (h : vars ≠ []) :
    buildSingularityConfigData vars = none ∧
    buildSingularityConfigData [] = some none := by
  refine ⟨?_, rfl⟩
  obtain ⟨kv, rest, rfl⟩ := List.exists_cons_of_ne_nil h
  unfold buildSingularityConfigData
  rw [List.foldl_cons]
  rw [show configDataStep (some none) kv = none from rfl]
  exact foldl_configDataStep_none rest

/-- Witness for C10 at a single concrete override. -/
theorem claim_C10_witness : buildSingularityConfigData [("CONSUL", "yes")] = none :=
  (claim_C10 [("CONSUL", "yes")] (by simp)).1

/-- Counterexample to C3 as stated: a YAML document carrying the explicit
scalar 0 for both defaultable keys leaves both fields 0 after loading —
`Init` applies the defaults before `yaml.Unmarshal` runs, so the explicit
zero overwrites them. -/
theorem claim_C3_cex :
    (loadConfigDefaults
      { scheduledExpectedRuntimeMillis := some 0,
        killOldNonLongRunningTasksAfterMillis := some 0 }).ScheduledExpectedRuntimeMillis = 0 ∧
    (loadConfigDefaults
      { scheduledExpectedRuntimeMillis := some 0,
        killOldNonLongRunningTasksAfterMillis := some 0 }).KillOldNonLongRunningTasksAfterMillis
      = 0 ∧
    ¬(loadConfigDefaults
      { scheduledExpectedRuntimeMillis := some 0,
        killOldNonLongRunningTasksAfterMillis := some 0 }).ScheduledExpectedRuntimeMillis
      = 360000 := by decide

/-- C3 (amended): a YAML document lacking a defaultable key leaves the
field at its default (360000 respectively 10000); a present key overwrites
the field with exactly the supplied value, so an explicit 0 yields 0. -/
theorem claim_C3 (y : SingularityYamlDoc) :
    (y.scheduledExpectedRuntimeMillis = none →
      (loadConfigDefaults y).ScheduledExpectedRuntimeMillis = 360000) ∧
    (y.killOldNonLongRunningTasksAfterMillis = none →
      (loadConfigDefaults y).KillOldNonLongRunningTasksAfterMillis = 10000) ∧
    (∀ v, y.scheduledExpectedRuntimeMillis = some v →
      (loadConfigDefaults y).ScheduledExpectedRuntimeMillis = v) ∧
    (∀ v, y.killOldNonLongRunningTasksAfterMillis = some v →
      (loadConfigDefaults y).KillOldNonLongRunningTasksAfterMillis = v) := by
  refine ⟨fun h => ?_, fun h => ?_, fun v h => ?_, fun v h => ?_⟩ <;>
    simp [loadConfigDefaults, yamlUnmarshal, SingularityConfig.Init, emptySingularityConfig,
      scheduledExpectedRuntimeMillisDefault, killOldNonLongRunningTasksAfterMillisDefault, h]

/-- Witness for C3 at the document lacking both keys. -/
theorem claim_C3_witness :
    (loadConfigDefaults
      { scheduledExpectedRuntimeMillis := none,
        killOldNonLongRunningTasksAfterMillis := none }).ScheduledExpectedRuntimeMillis
      = 360000 ∧
    (loadConfigDefaults
      { scheduledExpectedRuntimeMillis := none,
        killOldNonLongRunningTasksAfterMillis := none }).KillOldNonLongRunningTasksAfterMillis
      = 10000 :=
  ⟨(claim_C3
      { scheduledExpectedRuntimeMillis := none,
        killOldNonLongRunningTasksAfterMillis := none }).1 rfl,
   (claim_C3
      { scheduledExpectedRuntimeMillis := none,
        killOldNonLongRunningTasksAfterMillis := none }).2.1 rfl⟩

/-- C7: the code contradicts its stated intent. For an `Init`-ed config
with container type set and no volumes, the containerInfo fragment omits
the `volumes` member entirely — the `json:"volumes,omitempty"` tag omits the
empty slice that `Init` explicitly installed, so no `"volumes": []` is
emitted. -/
theorem claim_C7 :
    dockerTypeConfig.ContainerInfo.Volumes = [] ∧
    dockerTypeConfig.WriteContainerInfo ≠ "" ∧
    occursSub "\"volumes\"".data dockerTypeConfig.WriteContainerInfo.data = false ∧
    occursSub "\"type\":\"DOCKER\"".data dockerTypeConfig.WriteContainerInfo.data = true := by
  decide

/-- Counterexample to C2 as stated: `WriteResources` never returns the
empty string — a zero `Resources` struct still yields a fragment — and
`WriteRequiredSlaveAttributes` keys on nil-ness, so a present-but-empty
mapping also yields a fragment. -/
theorem claim_C2_cex :
    emptySingularityConfig.Resources = { NumPorts := 0, MemoryMb := 0, CPUs := 0, DiskMb := 0 } ∧
    emptySingularityConfig.WriteResources ≠ "" ∧
    emptyRSAConfig.WriteRequiredSlaveAttributes ≠ "" := by decide

/-- C2 (amended): the owners, schedule, env, arguments and containerInfo
builders return the empty string exactly when their source value is empty
and otherwise a complete `"name": <value>,` fragment with trailing comma
(quotes in member strings escaped via `jsonEscape`); the
requiredSlaveAttributes builder keys on the mapping being absent (nil), not
on emptiness; and the resources builder always emits its fragment,
serializing the zero struct as an empty object. -/
theorem claim_C2 (s : SingularityConfig) :
    (s.WriteOwners =
      if s.Owners = [] then "" else specFragment "owners" (jsonStringArray s.Owners)) ∧
    (s.WriteRequiredSlaveAttributes =
      match s.RequiredSlaveAttributes with
      | none => ""
      | some m => specFragment "requiredSlaveAttributes" (jsonStringMap m)) ∧
    (s.WriteSchedule =
      if s.Schedule = "" then "" else specFragment "schedule" (jsonStringValue s.Schedule)) ∧
    (s.WriteEnv =
      if s.Env = [] then "" else specFragment "env" (jsonStringMap s.Env)) ∧
    (s.WriteArguments =
      if s.Arguments = [] then "" else specFragment "arguments" (jsonStringArray s.Arguments)) ∧
    (s.WriteResources = specFragment "resources" (resourcesJSON s.Resources)) ∧
    (s.WriteContainerInfo =
      if s.ContainerInfo.Type_ = "" then ""
      else specFragment "containerInfo" (containerInfoJSON s.ContainerInfo)) := by
  refine ⟨?_, ?_, ?_, ?_, ?_, ?_, ?_⟩
  · by_cases h : s.Owners = [] <;>
      simp [SingularityConfig.WriteOwners, h, List.length_eq_zero, marshalJSON, specFragment]
  · rcases hm : s.RequiredSlaveAttributes with _ | m <;>
      simp [SingularityConfig.WriteRequiredSlaveAttributes, hm, marshalJSON, specFragment]
  · by_cases h : s.Schedule = "" <;>
      simp [SingularityConfig.WriteSchedule, h, marshalJSON, specFragment]
  · by_cases h : s.Env = [] <;>
      simp [SingularityConfig.WriteEnv, h, List.length_eq_zero, marshalJSON, specFragment]
  · by_cases h : s.Arguments = [] <;>
      simp [SingularityConfig.WriteArguments, h, List.length_eq_zero, marshalJSON, specFragment]
  · simp [SingularityConfig.WriteResources, marshalJSON, specFragment]
  · by_cases h : s.ContainerInfo.Type_ = "" <;>
      simp [SingularityConfig.WriteContainerInfo, h, marshalJSON, specFragment]

/-- C5: substituting the override store of the wonder-text example yields
the expected output, and in general every `{{identifier}}` occurrence whose
identifier is a key of the override store is replaced by that key's value
(the text before the placeholder, brace-free, is preserved; substitution
continues on the suffix). Settled against the spec-modelled
`replacePlaceholders`. -/
theorem claim_C5 :
    (replacePlaceholders "We are the {{what_are_we}}, And we are the {{what_are_we_also}}"
      [("what_are_we", "music makers"), ("what_are_we_also", "dreamers of dreams")] =
      "We are the music makers, And we are the dreamers of dreams") ∧
    ∀ (vars : List (String × String)) (pre id suf : List Char) (v : String),
      (∀ c ∈ pre, c ≠ '{') → (∀ c ∈ id, notBrace c = true) →
      mapGet vars (String.mk id) = some v →
      replacePlaceholders (String.mk (pre ++ '{' :: '{' :: (id ++ '}' :: '}' :: suf))) vars =
        String.mk pre ++ v ++ replacePlaceholders (String.mk suf) vars := by
  refine ⟨by decide, ?_⟩
  intro vars pre id suf v hpre hid hv
  unfold replacePlaceholders
  rw [stringMk_data_eq, stringMk_data_eq]
  have hlen : (pre ++ '{' :: '{' :: (id ++ '}' :: '}' :: suf)).length
      = pre.length + (id.length + suf.length + 4) := by
    simp only [List.length_append, List.length_cons]
    omega
  rw [hlen]
  rw [substFuel_append_pre vars pre _ _ hpre
    (by simp only [List.length_cons, List.length_append]; omega)]
  have hf2 : pre.length + (id.length + suf.length + 4) - pre.length
      = (id.length + suf.length + 3) + 1 := by omega
  rw [hf2]
  rw [substFuel_placeholder_resolved vars _ id suf v hid hv]
  rw [substFuel_congr vars (id.length + suf.length + 3) suf.length suf (by omega) (le_refl _)]
  rw [show (v : String) = String.mk v.data from (stringMk_data v).symm, stringMk_append,
    stringMk_append]
  rw [stringMk_data_eq]
  exact congrArg String.mk (by simp [List.append_assoc])

/-- Witness for C5's general clause at a concrete store, prefix, identifier
and suffix. -/
theorem claim_C5_witness :
    replacePlaceholders
      (String.mk ("We ".data ++ '{' :: '{' :: ("k".data ++ '}' :: '}' :: " here".data)))
      [("k", "are")] =
      String.mk "We ".data ++ "are" ++ replacePlaceholders (String.mk " here".data) [("k", "are")] :=
  claim_C5.2 [("k", "are")] "We ".data "k".data " here".data "are"
    (by decide) (by decide) (by decide)

/-- C6: a `{{identifier}}` placeholder whose identifier is not a key of the
override store does not make substitution fail: it is left verbatim in the
output (the spec-modelled `replacePlaceholders` is a total function, so the
stage is deterministic and cannot fail). -/
theorem claim_C6 (vars : List (String × String)) (pre id suf : List Char)
    (hpre : ∀ c ∈ pre, c ≠ '{') (hid : ∀ c ∈ id, notBrace c = true)
    (hv : mapGet vars (String.mk id) = none) :
    replacePlaceholders (String.mk (pre ++ '{' :: '{' :: (id ++ '}' :: '}' :: suf))) vars =
      String.mk pre ++ "\x7b\x7b" ++ String.mk id ++ "\x7d\x7d" ++
        replacePlaceholders (String.mk suf) vars := by
  unfold replacePlaceholders
  rw [stringMk_data_eq, stringMk_data_eq]
  have hlen : (pre ++ '{' :: '{' :: (id ++ '}' :: '}' :: suf)).length
      = pre.length + (id.length + suf.length + 4) := by
    simp only [List.length_append, List.length_cons]
    omega
  rw [hlen]
  rw [substFuel_append_pre vars pre _ _ hpre
    (by simp only [List.length_cons, List.length_append]; omega)]
  have hf2 : pre.length + (id.length + suf.length + 4) - pre.length
      = (id.length + suf.length + 3) + 1 := by omega
  rw [hf2]
  rw [substFuel_placeholder_unresolved vars _ id suf hid hv]
  rw [substFuel_congr vars (id.length + suf.length + 3) suf.length suf (by omega) (le_refl _)]
  rw [show ("\x7b\x7b" : String) = String.mk ['{', '{'] from rfl,
    show ("\x7d\x7d" : String) = String.mk ['}', '}'] from rfl,
    stringMk_append, stringMk_append, stringMk_append, stringMk_append]
  exact congrArg String.mk (by simp)

/-- Witness for C6 at a concrete store without the placeholder's key. -/
theorem claim_C6_witness :
    replacePlaceholders
      (String.mk ("We ".data ++ '{' :: '{' :: ("x".data ++ '}' :: '}' :: " here".data)))
      [("k", "are")] =
      String.mk "We ".data ++ "\x7b\x7b" ++ String.mk "x".data ++ "\x7d\x7d" ++
        replacePlaceholders (String.mk " here".data) [("k", "are")] :=
  claim_C6 [("k", "are")] "We ".data "x".data " here".data
    (by decide) (by decide) (by decide)


/-- Counterexample to C4 as stated: a config whose fragment builders all
produce empty output or a self-delimiting valid JSON member, but whose
directly-spliced `RequestType` contains a raw quote, renders a request
document that the JSON validator rejects. -/
theorem claim_C4_cex :
    (requestInvalidConfig.WriteOwners = "" ∨ MemberFrag requestInvalidConfig.WriteOwners.data) ∧
    (requestInvalidConfig.WriteRequiredSlaveAttributes = "" ∨
      MemberFrag requestInvalidConfig.WriteRequiredSlaveAttributes.data) ∧
    (requestInvalidConfig.WriteSchedule = "" ∨
      MemberFrag requestInvalidConfig.WriteSchedule.data) ∧
    (requestInvalidConfig.WriteEnv = "" ∨ MemberFrag requestInvalidConfig.WriteEnv.data) ∧
    (requestInvalidConfig.WriteArguments = "" ∨
      MemberFrag requestInvalidConfig.WriteArguments.data) ∧
    (requestInvalidConfig.WriteContainerInfo = "" ∨
      MemberFrag requestInvalidConfig.WriteContainerInfo.data) ∧
    (requestInvalidConfig.WriteResources = "" ∨
      MemberFrag requestInvalidConfig.WriteResources.data) ∧
    checkJSON (renderRequest requestInvalidConfig) = false := by
  refine ⟨Or.inl (by decide), Or.inl (by decide), Or.inl (by decide), Or.inl (by decide),
    Or.inl (by decide), Or.inl (by decide), Or.inr ?_, by decide⟩
  have hres : requestInvalidConfig.WriteResources.data =
      '"' :: ("resources".data ++ '"' :: ':' :: ([' '] ++ (['{', '}'] ++ [',']))) := by decide
  rw [hres]
  exact memberFrag_shape "resources".data [' '] ['{', '}'] (by decide) (by decide) ValFrag_emptyObj

/-- C4 (amended): for every config whose fragment builders each produce
either the empty string or a self-delimiting valid JSON member, and whose
directly-spliced string fields (requestType, requestID, deployID) contain
only JSON-safe characters (no quote, backslash or control character),
rendering the request and the deploy template each produce text the JSON
validator accepts — in particular no dangling comma — for every subset of
present/absent optional fragments. -/
theorem claim_C4 (cfg : SingularityConfig)
    (hO : cfg.WriteOwners = "" ∨ MemberFrag cfg.WriteOwners.data)
    (hR : cfg.WriteRequiredSlaveAttributes = "" ∨
      MemberFrag cfg.WriteRequiredSlaveAttributes.data)
    (hS : cfg.WriteSchedule = "" ∨ MemberFrag cfg.WriteSchedule.data)
    (hE : cfg.WriteEnv = "" ∨ MemberFrag cfg.WriteEnv.data)
    (hA : cfg.WriteArguments = "" ∨ MemberFrag cfg.WriteArguments.data)
    (hCI : cfg.WriteContainerInfo = "" ∨ MemberFrag cfg.WriteContainerInfo.data)
    (hRes : cfg.WriteResources = "" ∨ MemberFrag cfg.WriteResources.data)
    (hrt : SafeChars cfg.RequestType.data)
    (hrid : SafeChars cfg.RequestID.data)
    (hdid : SafeChars cfg.DeployID.data) :
    checkJSON (renderRequest cfg) = true ∧ checkJSON (renderDeploy cfg) = true := by
  have conv : ∀ s : String, (s = "" ∨ MemberFrag s.data) → OptFrag s.data := by
    intro s h
    rcases h with h | h
    · exact Or.inl (by rw [h])
    · exact Or.inr h
  exact ⟨renderRequest_valid cfg (conv _ hO) (conv _ hR) (conv _ hS) hrt hrid,
    renderDeploy_valid cfg (conv _ hA) (conv _ hCI) (conv _ hE) (conv _ hRes) hrid hdid⟩

/-- Witness for C4 at the zero config (all optional fragments absent, the
always-present resources fragment a valid member). -/
theorem claim_C4_witness :
    checkJSON (renderRequest emptySingularityConfig) = true ∧
    checkJSON (renderDeploy emptySingularityConfig) = true := by
  refine claim_C4 emptySingularityConfig (Or.inl (by decide)) (Or.inl (by decide))
    (Or.inl (by decide)) (Or.inl (by decide)) (Or.inl (by decide)) (Or.inl (by decide))
    (Or.inr ?_) (by decide) (by decide) (by decide)
  have hres : emptySingularityConfig.WriteResources.data =
      '"' :: ("resources".data ++ '"' :: ':' :: ([' '] ++ (['{', '}'] ++ [',']))) := by decide
  rw [hres]
  exact memberFrag_shape "resources".data [' '] ['{', '}'] (by decide) (by decide) ValFrag_emptyObj

/-- Counterexample to C1 as stated: a config whose request document is
valid but whose deploy document fails validation still leaves the request
file written — `main` processes the request document to disk before the
deploy document is even rendered. -/
theorem claim_C1_cex :
    checkJSON (renderRequest deployInvalidConfig) = true ∧
    checkJSON (renderDeploy deployInvalidConfig) = false ∧
    mainWrites deployInvalidConfig = [requestFilename] := by decide

/-- C1 (amended): each document is processed in sequence. A request-stage
validation failure prevents writing any file; a deploy-stage validation
failure still leaves the already-written request file in place; both files
exist exactly when both documents validate, and the deploy file is written
only if both validations succeeded. -/
theorem claim_C1 (cfg : SingularityConfig) :
    (checkJSON (renderRequest cfg) = false → mainWrites cfg = []) ∧
    (checkJSON (renderRequest cfg) = true → checkJSON (renderDeploy cfg) = false →
      mainWrites cfg = [requestFilename]) ∧
    (checkJSON (renderRequest cfg) = true → checkJSON (renderDeploy cfg) = true →
      mainWrites cfg = [requestFilename, deployFilename]) ∧
    (deployFilename ∈ mainWrites cfg ↔
      checkJSON (renderRequest cfg) = true ∧ checkJSON (renderDeploy cfg) = true) := by
  by_cases h1 : checkJSON (renderRequest cfg) = true <;>
    by_cases h2 : checkJSON (renderDeploy cfg) = true <;>
    simp [mainWrites, process, h1, h2, requestFilename, deployFilename]

/-- Witness for C1 at the zero config: both documents validate and both
files are written, request first. -/
theorem claim_C1_witness :
    mainWrites emptySingularityConfig = [requestFilename, deployFilename] :=
  (claim_C1 emptySingularityConfig).2.2.1 (by decide) (by decide)

end SCG


